import Mathlib

/-!
# LDAP credential backend: `Login`

A shallow embedding of `backend.Login` from
`builtin/credential/ldap/backend.go`, together with the properties of the
login-resolution algorithm.

Go strings are modelled by Lean `String`s; the separators that occur in the
source (`","` and `"="`) are one-byte ASCII strings and are modelled by the
characters `','` and `'='`.  A Go `error` is modelled by its `Error()` text.
The directory connection is an explicit state that `Bind` and `Search`
thread through; the group store is read-only.
-/

namespace Ldap

/-! ## The string helpers of the Go standard library used by `Login` -/

/-- Number of occurrences of the separator, as `strings.Count(s, sep)` for a
one-character separator. -/
def Count (sep : Char) (cs : List Char) : Nat :=
  cs.count sep

/-- The loop of `strings.genSplit`: cut `cs` at the first `n` occurrences of
`sep` and keep the remainder as the last piece. -/
def cut (sep : Char) : Nat → List Char → List (List Char)
  | 0, cs => [cs]
  | _ + 1, [] => [[]]
  | n + 1, c :: cs =>
    if c = sep then [] :: cut sep n cs
    else
      match cut sep (n + 1) cs with
      | [] => [[c]]
      | piece :: rest => (c :: piece) :: rest

/-- Go `strings.genSplit(s, sep, 0, n)` for a one-character separator:
`n = 0` gives no pieces, `n < 0` means all pieces, `n > 0` at most `n`
pieces. -/
def genSplit (s : String) (sep : Char) (n : Int) : List String :=
  if n = 0 then []
  else
    let k : Nat := if n < 0 then Count sep s.data else (n - 1).toNat
    (cut sep k s.data).map String.mk

/-- Go `strings.Split(s, sep)`. -/
def Split (s : String) (sep : Char) : List String :=
  genSplit s sep (-1)

/-- Go `strings.SplitN(s, sep, n)`. -/
def SplitN (s : String) (sep : Char) (n : Int) : List String :=
  genSplit s sep n

/-- Lines 112-113 of `backend.go`:
`dn := strings.Split(e.DN, ",")`, `gname := strings.SplitN(dn[0], "=", 2)[1]`.
The result is `none` when one of the two index expressions is out of range,
which in Go is a run-time panic. -/
def gnameOf (DN : String) : Option String :=
  let dn := Split DN ','
  match dn[0]? with
  | none => none
  | some dn0 => (SplitN dn0 '=' 2)[1]?

/-! ## Data model -/

/-- Modelled from the spec: the type `ConfigEntry` is declared in
`path_config.go`, which is not part of the sources at hand.  The fields are
the ones `Login` reads: `userAttribute`, `userBaseDN`, `groupBaseDN` and
`realmDomain` of the spec's DirectoryConfig.  The connection parameters are
consumed by `DialLDAP` only. -/
structure ConfigEntry where
  UserAttr : String
  UserDN : String
  GroupDN : String
  RealmDomain : String
deriving DecidableEq, Repr

/-- Modelled from the spec: the type `GroupEntry` is declared in
`path_groups.go`; `Login` reads its list of policy names. -/
structure GroupEntry where
  Policies : List String
deriving DecidableEq, Repr

/-- One attribute of a directory entry (type `ldap.EntryAttribute` of the
directory client library). -/
structure EntryAttribute where
  Name : String
  Values : List String
deriving DecidableEq, Repr

/-- A directory entry returned by a search (type `ldap.Entry`). -/
structure Entry where
  DN : String
  Attributes : List EntryAttribute
deriving DecidableEq, Repr

/-- The fields of `ldap.SearchRequest` that `Login` sets. A field left out
of the Go composite literal has its zero value (`nil` for `Attributes`). -/
structure SearchRequest where
  BaseDN : String
  Scope : Nat
  Filter : String
  Attributes : List String
deriving DecidableEq, Repr

/-- The part of `ldap.SearchResult` that `Login` reads. -/
structure SearchResult where
  Entries : List Entry
deriving DecidableEq, Repr

/-- Values of the first attribute with the given name, as
`Entry.GetAttributeValues` of the directory client library. -/
def Entry.GetAttributeValues (e : Entry) (attrName : String) : List String :=
  match e.Attributes.find? (fun a => a.Name == attrName) with
  | some a => a.Values
  | none => []

/-- First value of the named attribute, the empty string when there is none,
as `Entry.GetAttributeValue` of the directory client library. -/
def Entry.GetAttributeValue (e : Entry) (attrName : String) : String :=
  match e.GetAttributeValues attrName with
  | [] => ""
  | v :: _ => v

/-- Modelled from the spec: `logical.Response` belongs to the host framework.
An error response is flagged as an error and carries its human-readable
message under the key `"error"`. -/
structure Response where
  IsError : Bool
  Data : List (String × String)
deriving DecidableEq, Repr

/-- Modelled from the spec: `logical.ErrorResponse(text)` of the host
framework, the structured error with a human-readable message. -/
def ErrorResponse (text : String) : Response :=
  ⟨true, [("error", text)]⟩

/-- What a call of `Login` ends with: the three returned values
`([]string, *logical.Response, error)`, a `nil` slice being the empty list,
or a run-time panic (index out of range). -/
inductive Outcome where
  | ret (policies : List String) (resp : Option Response) (err : Option String)
  | panic
deriving DecidableEq, Repr

/-- The calls on the collaborators of `Login`, in the order made: the dial,
the operations `Bind`, `Search` and `Close` of a connection of the directory
client library, and the lookup of a group in the group store. `Close`
releases the connection. -/
inductive Event where
  | dial
  | bind (binddn password : String)
  | search (req : SearchRequest)
  | group (gname : String)
  | close
deriving DecidableEq, Repr

/-- The collaborators of `Login`. `Config` is the result of `b.Config(req)`,
`DialLDAP` opens a connection (state `σ`), `Bind` and `Search` act on the
connection and give its next state, `Group` is the result of
`b.Group(req.Storage, gname)`. An `error` is its message; `Bind` gives
`none` when the directory accepts. -/
structure World (σ : Type) where
  Config : Except String (Option ConfigEntry)
  DialLDAP : ConfigEntry → Except String σ
  Bind : σ → String → String → Option String × σ
  Search : σ → SearchRequest → Except String SearchResult × σ
  Group : String → Except String (Option GroupEntry)

/-- A finished call of `Login`: what it ended with, the calls it made, and
the connection as it was left (`none` when none was opened). -/
structure Run (σ : Type) where
  outcome : Outcome
  trace : List Event
  conn : Option σ

/-- The return statement `return nil, logical.ErrorResponse(text), nil`. -/
def errorReturn (text : String) : Outcome :=
  .ret [] (some (ErrorResponse text)) none

/-! ## The steps of `Login` -/

/-- Lines 64-70: the identity `Login` binds as. -/
def bindDN (cfg : ConfigEntry) (username : String) : String :=
  let binddn := cfg.UserAttr ++ "=" ++ username ++ "," ++ cfg.UserDN
  if cfg.RealmDomain.length ≠ 0 then username ++ "@" ++ cfg.RealmDomain
  else binddn

/-- Lines 81-86: the search request for the user of a realm. -/
def userSearchRequest (cfg : ConfigEntry) (username : String) : SearchRequest where
  BaseDN := cfg.UserDN
  Scope := 2
  Filter := "(userPrincipalName=" ++ username ++ "@" ++ cfg.RealmDomain ++ ")"
  Attributes := ["distinguishedName"]

/-- Lines 99-103: the search request for the groups of the user. -/
def groupSearchRequest (cfg : ConfigEntry) (username binddn : String) : SearchRequest where
  BaseDN := cfg.GroupDN
  Scope := 2
  Filter := "(|(memberUid=" ++ username ++ ")(member=" ++ binddn ++ ")(uniqueMember=" ++ binddn ++ "))"
  Attributes := []

/-- Where lines 50-106 leave a call of `Login`: it has ended, or the group
search has succeeded with `sresult`. -/
inductive Phase (σ : Type) where
  | done (r : Run σ)
  | groups (sresult : SearchResult) (c : σ) (trace : List Event)

/-- Lines 97-106: search the groups the user is a member of. -/
def searchGroups {σ : Type} (w : World σ) (cfg : ConfigEntry) (username binddn : String)
    (c : σ) (trace : List Event) : Phase σ :=
  let req := groupSearchRequest cfg username binddn
  match w.Search c req with
  | (.error err, c2) =>
    .done ⟨errorReturn ("LDAP search failed: " ++ err), trace ++ [.search req], some c2⟩
  | (.ok sresult, c2) => .groups sresult c2 (trace ++ [.search req])

/-- Lines 50-106: load the configuration, connect, bind, resolve the user of
a realm, search the groups. -/
def authenticate {σ : Type} (w : World σ) (username password : String) : Phase σ :=
  match w.Config with
  | .error err => .done ⟨.ret [] none (some err), [], none⟩
  | .ok none => .done ⟨errorReturn "ldap backend not configured", [], none⟩
  | .ok (some cfg) =>
    match w.DialLDAP cfg with
    | .error err => .done ⟨errorReturn err, [.dial], none⟩
    | .ok c =>
      let binddn := bindDN cfg username
      let trace := [.dial, .bind binddn password]
      match w.Bind c binddn password with
      | (some err, c1) => .done ⟨errorReturn ("LDAP bind failed: " ++ err), trace, some c1⟩
      | (none, c1) =>
        if cfg.RealmDomain.length ≠ 0 then
          let req := userSearchRequest cfg username
          match w.Search c1 req with
          | (.error err, c2) =>
            .done ⟨errorReturn ("LDAP user search failed: " ++ err), trace ++ [.search req], some c2⟩
          | (.ok user, c2) =>
            if user.Entries.length > 1 then
              .done ⟨errorReturn "Too many LDAP user results", trace ++ [.search req], some c2⟩
            else
              match user.Entries[0]? with
              | none => .done ⟨.panic, trace ++ [.search req], some c2⟩
              | some e =>
                searchGroups w cfg username (e.GetAttributeValue "distinguishedName") c2
                  (trace ++ [.search req])
        else searchGroups w cfg username binddn c1 trace

/-- The variables of the loop of lines 108-119, and the calls made so far. -/
structure LoopState where
  allgroups : List String
  policies : List String
  trace : List Event
deriving DecidableEq, Repr

/-- How the loop of lines 110-119 ends: normally, or by a panic. -/
inductive LoopResult where
  | done (st : LoopState)
  | panic (trace : List Event)
deriving DecidableEq, Repr

/-- Lines 110-119: for each entry, extract the group name, look the group
up, and append its policies. -/
def groupLoop (Group : String → Except String (Option GroupEntry)) :
    List Entry → LoopState → LoopResult
  | [], st => .done st
  | e :: es, st =>
    match gnameOf e.DN with
    | none => .panic st.trace
    | some gname =>
      let allgroups := st.allgroups ++ [gname]
      let trace := st.trace ++ [.group gname]
      match Group gname with
      | .ok (some group) => groupLoop Group es ⟨allgroups, st.policies ++ group.Policies, trace⟩
      | _ => groupLoop Group es ⟨allgroups, st.policies, trace⟩

/-- Lines 108-125: aggregate the policies of the groups found and decide. -/
def aggregate {σ : Type} (Group : String → Except String (Option GroupEntry))
    (sresult : SearchResult) (c : σ) (trace : List Event) : Run σ :=
  match groupLoop Group sresult.Entries ⟨[], [], trace⟩ with
  | .panic tr => ⟨.panic, tr, some c⟩
  | .done st =>
    if st.policies.length = 0 then
      ⟨errorReturn "user is not member of any authorized group", st.trace, some c⟩
    else ⟨.ret st.policies none none, st.trace, some c⟩

/-- The method `backend.Login` (lines 48-126). -/
def Login {σ : Type} (w : World σ) (username password : String) : Run σ :=
  match authenticate w username password with
  | .done r => r
  | .groups sresult c trace => aggregate w.Group sresult c trace

/-! ## The group name and the granted policies, as the specification words them -/

/-- The first comma-separated component of a distinguished name. -/
def firstComponent (DN : String) : List Char :=
  DN.data.takeWhile (fun c => c != ',')

/-- A distinguished name is well formed when its first comma-separated
component contains the character `=`. -/
def wellFormed (DN : String) : Prop :=
  '=' ∈ firstComponent DN

instance (DN : String) : Decidable (wellFormed DN) :=
  inferInstanceAs (Decidable ('=' ∈ firstComponent DN))

/-- The group name of a distinguished name: the part of its first
comma-separated component after the first `=` of that component. -/
def groupName (DN : String) : String :=
  String.mk ((firstComponent DN).dropWhile (fun c => c != '=')).tail

/-- The policy list the group store maps a group name to, if it maps it. -/
def mappedPolicies (Group : String → Except String (Option GroupEntry))
    (gname : String) : Option (List String) :=
  match Group gname with
  | .ok (some group) => some group.Policies
  | _ => none

/-- The concatenation, in the order of the entries, of the policy lists of
the group names that the group store maps. -/
def granted (Group : String → Except String (Option GroupEntry))
    (entries : List Entry) : List String :=
  ((entries.map (fun e => groupName e.DN)).filterMap (mappedPolicies Group)).flatten

/-- The calls made when the loop ends. -/
def LoopResult.trace : LoopResult → List Event
  | .done st => st.trace
  | .panic tr => tr

/-- The calls made up to the point where lines 50-106 leave `Login`. -/
def Phase.trace {σ : Type} : Phase σ → List Event
  | .done r => r.trace
  | .groups _ _ tr => tr

/-! ## The connection, the directory operations and the password -/

/-- Where a run leaves the connection: none was opened, it is still held, or
it has been released by a call of `Close`. -/
inductive ConnStatus where
  | absent
  | held
  | released
deriving DecidableEq, Repr

/-- The state of the connection at the end of a run. -/
def Run.status {σ : Type} (r : Run σ) : ConnStatus :=
  match r.conn with
  | none => .absent
  | some _ => if Event.close ∈ r.trace then .released else .held

/-- The directory operations among the calls: binds and searches. -/
def Event.isDirOp : Event → Bool
  | .bind _ _ => true
  | .search _ => true
  | _ => false

/-- The sequence of directory operations issued on the connection. -/
def dirOps (trace : List Event) : List Event :=
  trace.filter Event.isDirOp

/-- The call with the password of a bind replaced by `pw`. -/
def Event.setPassword (pw : String) : Event → Event
  | .bind binddn _ => .bind binddn pw
  | ev => ev

/-- The binds among the calls. -/
def Event.isBind : Event → Bool
  | .bind _ _ => true
  | _ => false

/-- A run with its calls rewritten by `f`. -/
def Run.mapTrace {σ : Type} (f : List Event → List Event) (r : Run σ) : Run σ :=
  ⟨r.outcome, f r.trace, r.conn⟩

/-- Lines 50-106 with the calls rewritten by `f`. -/
def Phase.mapTrace {σ : Type} (f : List Event → List Event) : Phase σ → Phase σ
  | .done r => .done (r.mapTrace f)
  | .groups sresult c tr => .groups sresult c (f tr)

/-- The end of the loop with the calls rewritten by `f`. -/
def LoopResult.mapTrace (f : List Event → List Event) : LoopResult → LoopResult
  | .done st => .done ⟨st.allgroups, st.policies, f st.trace⟩
  | .panic tr => .panic (f tr)

/-- The world `w` with the group store `Group`. -/
def World.withGroup {σ : Type} (w : World σ)
    (Group : String → Except String (Option GroupEntry)) : World σ :=
  ⟨w.Config, w.DialLDAP, w.Bind, w.Search, Group⟩

/-! ## Scenarios -/

/-- The configuration of the end-to-end scenarios without a realm. -/
def cfgA : ConfigEntry :=
  ⟨"uid", "ou=People,dc=example,dc=com", "ou=Group,dc=example,dc=com", ""⟩

/-- A configuration with a realm. -/
def cfgRealm : ConfigEntry :=
  ⟨"sAMAccountName", "ou=People,dc=example,dc=com", "ou=Group,dc=example,dc=com",
    "example.com"⟩

/-- A directory for the scenarios. The state of the connection tells whether
it is bound. `bindErr` is the answer to every bind; a search on a bound
connection is answered with `users` when it asks for the attribute
`distinguishedName` and with `groups` otherwise. The group store maps
`admins` to one policy and nothing else. -/
def scenario (cfg : ConfigEntry) (bindErr : Option String) (users groups : List Entry) :
    World Bool where
  Config := .ok (some cfg)
  DialLDAP := fun _ => .ok false
  Bind := fun c _ _ => if bindErr.isNone then (none, true) else (bindErr, c)
  Search := fun c req =>
    if c then
      if req.Attributes = ["distinguishedName"] then (.ok ⟨users⟩, c) else (.ok ⟨groups⟩, c)
    else (.error "unauthenticated", c)
  Group := fun g => if g = "admins" then .ok (some ⟨["admin-policy"]⟩) else .ok none

/-- The entry of the group `admins`. -/
def adminsEntry : Entry := ⟨"cn=admins,ou=Group,dc=example,dc=com", []⟩

/-- The entry of the group `users`, which the group store does not map. -/
def usersEntry : Entry := ⟨"cn=users,ou=Group,dc=example,dc=com", []⟩

/-- The entry of the user `alice` of the realm. -/
def aliceEntry : Entry :=
  ⟨"CN=Alice,OU=Staff,DC=example,DC=com",
    [⟨"distinguishedName", ["CN=Alice,OU=Staff,DC=example,DC=com"]⟩]⟩

/-- The entry of the user `bob` of the realm: its name in the directory
differs from the value of its attribute `distinguishedName`, which is not
its first attribute and has two values. -/
def bobEntry : Entry :=
  ⟨"cn=bob,ou=People,dc=example,dc=com",
    [⟨"mail", ["bob@example.com"]⟩,
      ⟨"distinguishedName", ["CN=Bob,OU=Staff,DC=example,DC=com", "CN=Robert"]⟩,
      ⟨"distinguishedName", ["CN=Other"]⟩]⟩

/-- The directory of `scenario` before any configuration has been set. -/
def unconfigured : World Bool where
  Config := .ok none
  DialLDAP := fun _ => .ok false
  Bind := fun c _ _ => (none, c)
  Search := fun c _ => (.ok ⟨[]⟩, c)
  Group := fun _ => .ok none

/-- A directory that accepts every bind, answers the search for the user of
a realm with `users` and fails every other search with the error `err`. -/
def searchFails (cfg : ConfigEntry) (users : List Entry) (err : String) : World Bool where
  Config := .ok (some cfg)
  DialLDAP := fun _ => .ok false
  Bind := fun _ _ _ => (none, true)
  Search := fun c req =>
    if req.Attributes = ["distinguishedName"] then (.ok ⟨users⟩, c) else (.error err, c)
  Group := fun g => if g = "admins" then .ok (some ⟨["admin-policy"]⟩) else .ok none

/-- A group store that maps `admins` and fails on every other group. -/
def brokenStore (g : String) : Except String (Option GroupEntry) :=
  if g = "admins" then .ok (some ⟨["admin-policy"]⟩) else .error "storage unavailable"

/-- The group store of `brokenStore` with its failures turned into misses. -/
def missingStore (g : String) : Except String (Option GroupEntry) :=
  if g = "admins" then .ok (some ⟨["admin-policy"]⟩) else .ok none

/-- The group store that `brokenStore` would be without its failures: it
maps `users` as well. -/
def healthyStore (g : String) : Except String (Option GroupEntry) :=
  if g = "admins" then .ok (some ⟨["admin-policy"]⟩)
  else if g = "users" then .ok (some ⟨["user-policy"]⟩) else .ok none

/-! ## Splitting strings -/

theorem takeWhile_ne_of_not_mem (sep : Char) (cs : List Char) (h : sep ∉ cs) :
    cs.takeWhile (fun c => c != sep) = cs := by
  induction cs with
  | nil => rfl
  | cons c cs ih =>
    simp only [List.mem_cons, not_or] at h
    have hc : (c != sep) = true := by simpa using fun e => h.1 e.symm
    simp [List.takeWhile_cons, hc, ih h.2]

theorem cut_head (sep : Char) (cs : List Char) :
    ∀ n : Nat, (n = 0 → sep ∉ cs) →
      (cut sep n cs).head? = some (cs.takeWhile (fun c => c != sep)) := by
  induction cs with
  | nil => intro n _; cases n <;> rfl
  | cons c cs ih =>
    intro n hn
    cases n with
    | zero => simp [cut, takeWhile_ne_of_not_mem sep (c :: cs) (hn rfl)]
    | succ n =>
      by_cases hc : c = sep
      · simp [cut, hc]
      · have h := ih (n + 1) (by simp)
        have hb : (c != sep) = true := by simpa using hc
        simp only [List.takeWhile_cons, hb, if_true, cut, hc, if_false]
        cases hcut : cut sep (n + 1) cs with
        | nil => rw [hcut] at h; simp at h
        | cons p r => rw [hcut] at h; simp at h; simp [h]

theorem cut_one (sep : Char) (cs : List Char) :
    cut sep 1 cs =
      if sep ∈ cs then
        [cs.takeWhile (fun c => c != sep), (cs.dropWhile (fun c => c != sep)).tail]
      else [cs] := by
  induction cs with
  | nil => simp [cut]
  | cons c cs ih =>
    by_cases hc : c = sep
    · subst hc; simp [cut]
    · have hb : (c != sep) = true := by simpa using hc
      have hne : ¬ sep = c := fun e => hc e.symm
      simp only [cut, hc, if_false, ih, List.mem_cons, hne, false_or,
        List.takeWhile_cons, List.dropWhile_cons, hb, if_true]
      split_ifs <;> rfl

/-- The first piece of `strings.Split(DN, ",")` always exists and is the
first comma-separated component. -/
theorem Split_head (DN : String) :
    (Split DN ',')[0]? = some (String.mk (firstComponent DN)) := by
  have h := cut_head ',' DN.data (Count ',' DN.data)
    (fun h0 => by simpa [Count, List.count_eq_zero] using h0)
  simp only [Split, genSplit, firstComponent]
  rw [if_neg (by decide), if_pos (by decide)]
  rw [← List.head?_eq_getElem?, List.head?_map, h]
  rfl

/-- What `strings.SplitN(s, "=", 2)` gives at index 1. -/
theorem SplitN_two_snd (s : String) :
    (SplitN s '=' 2)[1]? =
      if '=' ∈ s.data then some (String.mk (s.data.dropWhile (fun c => c != '=')).tail)
      else none := by
  simp only [SplitN, genSplit]
  rw [if_neg (by decide), if_neg (by decide)]
  have h1 : ((2 : Int) - 1).toNat = 1 := by decide
  rw [h1, cut_one]
  split_ifs <;> simp

/-- The group name the code extracts is the one of the specification when
the distinguished name is well formed; otherwise the extraction panics. -/
theorem gnameOf_eq (DN : String) :
    gnameOf DN = if wellFormed DN then some (groupName DN) else none := by
  simp only [gnameOf, Split_head, SplitN_two_snd, wellFormed, groupName]

/-! ## The loop over the group entries -/

theorem granted_cons (Group : String → Except String (Option GroupEntry))
    (e : Entry) (es : List Entry) :
    granted Group (e :: es) =
      (match Group (groupName e.DN) with
        | .ok (some group) => group.Policies
        | _ => []) ++ granted Group es := by
  simp only [granted, List.map_cons, List.filterMap_cons, mappedPolicies]
  cases Group (groupName e.DN) with
  | error err => simp
  | ok o => cases o <;> simp

/-- On well-formed entries the loop ends normally, having looked up the
group name of every entry in order and appended the mapped policy lists. -/
theorem groupLoop_wellFormed (Group : String → Except String (Option GroupEntry))
    (es : List Entry) :
    ∀ st : LoopState, (∀ e ∈ es, wellFormed e.DN) →
      groupLoop Group es st =
        .done ⟨st.allgroups ++ es.map (fun e => groupName e.DN),
          st.policies ++ granted Group es,
          st.trace ++ es.map (fun e => Event.group (groupName e.DN))⟩ := by
  induction es with
  | nil => intro st _; simp [groupLoop, granted]
  | cons e es ih =>
    intro st h
    have he : wellFormed e.DN := h e (List.mem_cons_self _ _)
    have hes : ∀ x ∈ es, wellFormed x.DN := fun x hx => h x (List.mem_cons_of_mem _ hx)
    rw [groupLoop, gnameOf_eq, if_pos he]
    simp only [granted_cons]
    split <;> simp_all

/-- An entry whose distinguished name is not well formed makes the loop
panic. -/
theorem groupLoop_malformed (Group : String → Except String (Option GroupEntry))
    (es : List Entry) :
    ∀ st : LoopState, (∃ e ∈ es, ¬ wellFormed e.DN) →
      ∃ tr, groupLoop Group es st = .panic tr := by
  induction es with
  | nil => intro st h; simp at h
  | cons e es ih =>
    intro st h
    by_cases he : wellFormed e.DN
    · have hes : ∃ x ∈ es, ¬ wellFormed x.DN := by
        obtain ⟨x, hx, hw⟩ := h
        rcases List.mem_cons.mp hx with rfl | hx
        · exact absurd he hw
        · exact ⟨x, hx, hw⟩
      rw [groupLoop, gnameOf_eq, if_pos he]
      simp only
      split <;> exact ih _ hes
    · exact ⟨st.trace, by rw [groupLoop, gnameOf_eq, if_neg he]⟩

/-- The loop only adds group-store lookups to the calls made. -/
theorem groupLoop_trace (Group : String → Except String (Option GroupEntry))
    (es : List Entry) :
    ∀ st : LoopState, ∃ gs : List String,
      (groupLoop Group es st).trace = st.trace ++ gs.map Event.group := by
  induction es with
  | nil => intro st; exact ⟨[], by simp [groupLoop, LoopResult.trace]⟩
  | cons e es ih =>
    intro st
    rw [groupLoop]
    cases hg : gnameOf e.DN with
    | none => exact ⟨[], by simp [LoopResult.trace]⟩
    | some g =>
      simp only
      split
      all_goals
        rename_i h
        obtain ⟨gs, hgs⟩ := ih _
        refine ⟨g :: gs, ?_⟩
        rw [hgs]
        simp

theorem aggregate_trace {σ : Type} (Group : String → Except String (Option GroupEntry))
    (sresult : SearchResult) (c : σ) (tr : List Event) :
    ∃ gs : List String, (aggregate Group sresult c tr).trace = tr ++ gs.map Event.group := by
  obtain ⟨gs, hgs⟩ := groupLoop_trace Group sresult.Entries ⟨[], [], tr⟩
  refine ⟨gs, ?_⟩
  unfold aggregate
  cases hl : groupLoop Group sresult.Entries ⟨[], [], tr⟩ with
  | panic t => rw [hl] at hgs; simpa [LoopResult.trace] using hgs
  | done st =>
    rw [hl] at hgs
    simp only [LoopResult.trace] at hgs
    simp only
    split <;> exact hgs

theorem aggregate_wellFormed {σ : Type} (Group : String → Except String (Option GroupEntry))
    (sresult : SearchResult) (c : σ) (tr : List Event)
    (h : ∀ e ∈ sresult.Entries, wellFormed e.DN) :
    aggregate Group sresult c tr =
      ⟨if granted Group sresult.Entries = [] then
          errorReturn "user is not member of any authorized group"
        else .ret (granted Group sresult.Entries) none none,
        tr ++ sresult.Entries.map (fun e => Event.group (groupName e.DN)), some c⟩ := by
  unfold aggregate
  rw [groupLoop_wellFormed Group sresult.Entries _ h]
  simp only [List.nil_append, List.length_eq_zero]
  split_ifs <;> rfl

/-! ## The steps before the loop -/

theorem length_eq_zero_iff (s : String) : s.length = 0 ↔ s = "" := by
  cases s with
  | mk l =>
    constructor
    · intro h
      have : l = [] := List.length_eq_zero.mp h
      subst this; rfl
    · intro h; rw [h]; rfl

theorem Login_of_groups {σ : Type} (w : World σ) (username password : String)
    (sresult : SearchResult) (c : σ) (tr : List Event)
    (h : authenticate w username password = .groups sresult c tr) :
    Login w username password = aggregate w.Group sresult c tr := by
  simp [Login, h]

theorem Login_of_done {σ : Type} (w : World σ) (username password : String)
    (r : Run σ) (h : authenticate w username password = .done r) :
    Login w username password = r := by
  simp [Login, h]

/-- Without a realm, after a successful bind the group search comes next,
with the identity that was bound. -/
theorem authenticate_plain {σ : Type} (w : World σ) (cfg : ConfigEntry) (c c1 : σ)
    (username password : String)
    (hcfg : w.Config = .ok (some cfg)) (hdial : w.DialLDAP cfg = .ok c)
    (hrealm : cfg.RealmDomain = "")
    (hbind : w.Bind c (bindDN cfg username) password = (none, c1)) :
    authenticate w username password =
      searchGroups w cfg username (bindDN cfg username) c1
        [.dial, .bind (bindDN cfg username) password] := by
  have h0 : cfg.RealmDomain.length = 0 := (length_eq_zero_iff _).mpr hrealm
  simp [authenticate, hcfg, hdial, hbind, h0]

/-- With a realm, after a successful bind the user search comes next. -/
theorem authenticate_realm {σ : Type} (w : World σ) (cfg : ConfigEntry) (c c1 : σ)
    (username password : String)
    (hcfg : w.Config = .ok (some cfg)) (hdial : w.DialLDAP cfg = .ok c)
    (hrealm : cfg.RealmDomain ≠ "")
    (hbind : w.Bind c (bindDN cfg username) password = (none, c1)) :
    authenticate w username password =
      match w.Search c1 (userSearchRequest cfg username) with
      | (.error err, c2) =>
        .done ⟨errorReturn ("LDAP user search failed: " ++ err),
          [.dial, .bind (bindDN cfg username) password, .search (userSearchRequest cfg username)],
          some c2⟩
      | (.ok user, c2) =>
        if user.Entries.length > 1 then
          .done ⟨errorReturn "Too many LDAP user results",
            [.dial, .bind (bindDN cfg username) password, .search (userSearchRequest cfg username)],
            some c2⟩
        else
          match user.Entries[0]? with
          | none =>
            .done ⟨.panic,
              [.dial, .bind (bindDN cfg username) password, .search (userSearchRequest cfg username)],
              some c2⟩
          | some e =>
            searchGroups w cfg username (e.GetAttributeValue "distinguishedName") c2
              [.dial, .bind (bindDN cfg username) password,
                .search (userSearchRequest cfg username)] := by
  have h0 : cfg.RealmDomain.length ≠ 0 := fun h => hrealm ((length_eq_zero_iff _).mp h)
  simp [authenticate, hcfg, hdial, hbind, h0]

/-- How lines 50-106 can end a call: a panic, an error response, or the
error of the configuration load. -/
theorem authenticate_done_outcome {σ : Type} (w : World σ) (username password : String)
    (r : Run σ) (h : authenticate w username password = .done r) :
    r.outcome = .panic ∨ (∃ text, r.outcome = errorReturn text) ∨
      (∃ err, r.outcome = .ret [] none (some err)) := by
  unfold authenticate searchGroups at h
  dsimp only at h
  repeat' split at h
  all_goals cases h <;> simp [errorReturn]

/-- How lines 108-125 can end a call: a panic, the error response of the
empty policy list, or a non-empty policy list. -/
theorem aggregate_outcome {σ : Type} (Group : String → Except String (Option GroupEntry))
    (sresult : SearchResult) (c : σ) (tr : List Event) :
    (aggregate Group sresult c tr).outcome = .panic ∨
      (aggregate Group sresult c tr).outcome =
        errorReturn "user is not member of any authorized group" ∨
      (∃ ps, ps ≠ [] ∧ (aggregate Group sresult c tr).outcome = .ret ps none none) := by
  unfold aggregate
  split
  · exact Or.inl rfl
  · rename_i st _
    by_cases h0 : st.policies.length = 0
    · rw [if_pos h0]; exact Or.inr (Or.inl rfl)
    · rw [if_neg h0]
      exact Or.inr (Or.inr ⟨st.policies, fun h => h0 (by simp [h]), rfl⟩)

/-- After the configuration is loaded and the connection is opened, the
calls are one bind followed by searches and then group-store lookups. -/
theorem authenticate_trace {σ : Type} (w : World σ) (cfg : ConfigEntry) (c : σ)
    (username password : String)
    (hcfg : w.Config = .ok (some cfg)) (hdial : w.DialLDAP cfg = .ok c) :
    ∃ ss : List SearchRequest,
      (authenticate w username password).trace =
        [.dial, .bind (bindDN cfg username) password] ++ ss.map Event.search := by
  unfold authenticate searchGroups
  simp only [hcfg, hdial]
  repeat' split
  all_goals first
    | exact ⟨[], rfl⟩
    | exact ⟨[_], rfl⟩
    | exact ⟨[_, _], rfl⟩

theorem Login_trace {σ : Type} (w : World σ) (username password : String) :
    ∃ gs : List String,
      (Login w username password).trace =
        (authenticate w username password).trace ++ gs.map Event.group := by
  unfold Login
  cases h : authenticate w username password with
  | done r => exact ⟨[], by simp [Phase.trace]⟩
  | groups sresult c tr => exact aggregate_trace w.Group sresult c tr

theorem bindDN_plain (cfg : ConfigEntry) (username : String) (h : cfg.RealmDomain = "") :
    bindDN cfg username = cfg.UserAttr ++ "=" ++ username ++ "," ++ cfg.UserDN := by
  have h0 : cfg.RealmDomain.length = 0 := (length_eq_zero_iff _).mpr h
  simp [bindDN, h0]

theorem bindDN_realm (cfg : ConfigEntry) (username : String) (h : cfg.RealmDomain ≠ "") :
    bindDN cfg username = username ++ "@" ++ cfg.RealmDomain := by
  have h0 : cfg.RealmDomain.length ≠ 0 := fun e => h ((length_eq_zero_iff _).mp e)
  simp [bindDN, h0]

/-- The calls of the group search and of what follows it. -/
theorem searchGroups_trace {σ : Type} (w : World σ) (cfg : ConfigEntry)
    (username binddn : String) (c : σ) (tr : List Event) :
    (searchGroups w cfg username binddn c tr).trace =
      tr ++ [.search (groupSearchRequest cfg username binddn)] := by
  unfold searchGroups
  dsimp only
  split <;> rfl

theorem Login_searchGroups_trace {σ : Type} (w : World σ) (cfg : ConfigEntry)
    (username password binddn : String) (c : σ) (tr : List Event)
    (h : authenticate w username password = searchGroups w cfg username binddn c tr) :
    ∃ gs : List String,
      (Login w username password).trace =
        tr ++ [.search (groupSearchRequest cfg username binddn)] ++ gs.map Event.group := by
  obtain ⟨gs, hgs⟩ := Login_trace w username password
  exact ⟨gs, by rw [hgs, h, searchGroups_trace]⟩

/-- With a realm, a run whose user search returns no entry panics. -/
theorem Login_realm_zero_entries {σ : Type} (w : World σ) (cfg : ConfigEntry) (c c1 c2 : σ)
    (username password : String)
    (hcfg : w.Config = .ok (some cfg)) (hdial : w.DialLDAP cfg = .ok c)
    (hrealm : cfg.RealmDomain ≠ "")
    (hbind : w.Bind c (bindDN cfg username) password = (none, c1))
    (hsearch : w.Search c1 (userSearchRequest cfg username) = (.ok ⟨[]⟩, c2)) :
    (Login w username password).outcome = .panic := by
  have h := authenticate_realm w cfg c c1 username password hcfg hdial hrealm hbind
  rw [hsearch] at h
  rw [Login_of_done w username password _ h]

/-- A run that reaches the group entries panics when one of them has a
distinguished name that is not well formed. -/
theorem Login_malformed_panics {σ : Type} (w : World σ) (username password : String)
    (sresult : SearchResult) (c : σ) (tr : List Event)
    (hreach : authenticate w username password = .groups sresult c tr)
    (hbad : ∃ e ∈ sresult.Entries, ¬ wellFormed e.DN) :
    (Login w username password).outcome = .panic := by
  obtain ⟨t, ht⟩ := groupLoop_malformed w.Group sresult.Entries ⟨[], [], tr⟩ hbad
  rw [Login_of_groups w username password sresult c tr hreach]
  simp [aggregate, ht]

theorem granted_unmapped (Group : String → Except String (Option GroupEntry))
    (es : List Entry) (h : ∀ e ∈ es, Group (groupName e.DN) = .ok none) :
    granted Group es = [] := by
  induction es with
  | nil => rfl
  | cons e es ih =>
    rw [granted_cons, h e (List.mem_cons_self _ _),
      ih (fun x hx => h x (List.mem_cons_of_mem _ hx))]
    rfl

/-- A loop that ends normally has accumulated the granted policies. -/
theorem groupLoop_done_policies (Group : String → Except String (Option GroupEntry))
    (es : List Entry) (st st2 : LoopState) (h : groupLoop Group es st = .done st2) :
    st2.policies = st.policies ++ granted Group es := by
  by_cases hwf : ∀ e ∈ es, wellFormed e.DN
  · rw [groupLoop_wellFormed Group es st hwf] at h
    cases h; rfl
  · have hbad : ∃ e ∈ es, ¬ wellFormed e.DN := by
      by_contra hcon
      exact hwf (fun e he => by_contra (fun hw => hcon ⟨e, he, hw⟩))
    obtain ⟨t, ht⟩ := groupLoop_malformed Group es st hbad
    rw [ht] at h
    cases h

/-- The group name of a distinguished name that starts with `a`, `=`, `b`
and then ends or goes on with a comma, where `a` has no `=` and neither `a`
nor `b` has a comma, is `b`. -/
theorem groupName_of_parts (DN : String) (a b rest : List Char)
    (hDN : DN.data = a ++ '=' :: b ++ rest)
    (ha : '=' ∉ a) (hac : ',' ∉ a) (hbc : ',' ∉ b)
    (hrest : rest = [] ∨ rest.head? = some ',') :
    wellFormed DN ∧ groupName DN = String.mk b := by
  have hne : ∀ (l : List Char) (sep : Char), sep ∉ l → ∀ x ∈ l, (x != sep) = true := by
    intro l sep hl x hx
    simpa using fun e : x = sep => hl (e ▸ hx)
  have hrt : rest.takeWhile (fun x => x != ',') = [] := by
    rcases hrest with h | h
    · rw [h]; rfl
    · cases rest with
      | nil => rfl
      | cons r rs =>
        simp only [List.head?_cons, Option.some.injEq] at h
        subst h
        rfl
  have hfirst : firstComponent DN = a ++ '=' :: b := by
    have hsplit : a ++ '=' :: b ++ rest = a ++ ('=' :: (b ++ rest)) := by simp
    unfold firstComponent
    rw [hDN, hsplit, List.takeWhile_append_of_pos (hne a ',' hac)]
    have heq : (('=' : Char) != ',') = true := by decide
    rw [List.takeWhile_cons, if_pos heq,
      List.takeWhile_append_of_pos (hne b ',' hbc), hrt, List.append_nil]
  refine ⟨?_, ?_⟩
  · unfold wellFormed
    rw [hfirst]
    simp
  · unfold groupName
    rw [hfirst, List.dropWhile_append_of_pos (hne a '=' ha)]
    simp

/-! ## The claims -/

/-- C1: when lines 50-106 of Login reach the group entries (the bind and the
group search have succeeded) and every returned entry has a well-formed
distinguished name, the policy list accumulated by the loop is the
concatenation, in the order of the entries, of the policy lists of the
extracted group names that the group store maps, and when this list is not
empty Login returns it unchanged as its successful result. -/
theorem Login_policies_concat {σ : Type} (w : World σ) (username password : String)
    (sresult : SearchResult) (c : σ) (tr : List Event)
    (hreach : authenticate w username password = .groups sresult c tr)
    (hwf : ∀ e ∈ sresult.Entries, wellFormed e.DN) :
    (∃ st, groupLoop w.Group sresult.Entries ⟨[], [], tr⟩ = .done st ∧
      st.policies =
        ((sresult.Entries.map (fun e => groupName e.DN)).filterMap
          (mappedPolicies w.Group)).flatten) ∧
    (granted w.Group sresult.Entries ≠ [] →
      (Login w username password).outcome =
        .ret (granted w.Group sresult.Entries) none none) := by
  refine ⟨⟨_, groupLoop_wellFormed w.Group sresult.Entries _ hwf, ?_⟩, ?_⟩
  · simp [granted]
  · intro hne
    rw [Login_of_groups w username password sresult c tr hreach,
      aggregate_wellFormed w.Group sresult c tr hwf]
    simp [hne]

/-- Witness of C1: two groups are returned, only `admins` is mapped, and the
result is exactly the policies of `admins`. -/
theorem Login_policies_concat_witness :
    (∀ e ∈ [usersEntry, adminsEntry], wellFormed e.DN) ∧
    granted (scenario cfgA none [] [usersEntry, adminsEntry]).Group
      [usersEntry, adminsEntry] = ["admin-policy"] ∧
    (Login (scenario cfgA none [] [usersEntry, adminsEntry]) "alice" "secret").outcome =
      .ret ["admin-policy"] none none :=
  ⟨by decide, by decide,
    (Login_policies_concat (scenario cfgA none [] [usersEntry, adminsEntry]) "alice" "secret"
      ⟨[usersEntry, adminsEntry]⟩ true
      [.dial, .bind (bindDN cfgA "alice") "secret",
        .search (groupSearchRequest cfgA "alice" (bindDN cfgA "alice"))]
      rfl (by decide)).2 (by decide)⟩

/-- C2: when the directory rejects the bind, Login returns no policies and
the error response whose message is "LDAP bind failed: " followed by the
error text of the directory; the calls made are the dial and that bind
only, so no search is issued and the group store is not consulted, and the
result depends on the rejection through its error text only. -/
theorem Login_bind_failure {σ : Type} (w : World σ) (cfg : ConfigEntry) (c c1 : σ)
    (username password err : String)
    (hcfg : w.Config = .ok (some cfg)) (hdial : w.DialLDAP cfg = .ok c)
    (hbind : w.Bind c (bindDN cfg username) password = (some err, c1)) :
    (Login w username password).outcome =
      .ret [] (some (ErrorResponse ("LDAP bind failed: " ++ err))) none ∧
    (Login w username password).trace = [.dial, .bind (bindDN cfg username) password] := by
  have h : authenticate w username password =
      .done ⟨errorReturn ("LDAP bind failed: " ++ err),
        [.dial, .bind (bindDN cfg username) password], some c1⟩ := by
    simp [authenticate, hcfg, hdial, hbind]
  rw [Login_of_done w username password _ h]
  exact ⟨rfl, rfl⟩

/-- Witness of C2: the directory rejects the bind of scenario B. -/
theorem Login_bind_failure_witness :
    (Login (scenario cfgA (some "Invalid Credentials") [] [adminsEntry])
        "alice" "secret").outcome =
      .ret [] (some (ErrorResponse "LDAP bind failed: Invalid Credentials")) none ∧
    (Login (scenario cfgA (some "Invalid Credentials") [] [adminsEntry])
        "alice" "secret").trace =
      [.dial, .bind "uid=alice,ou=People,dc=example,dc=com" "secret"] :=
  Login_bind_failure (scenario cfgA (some "Invalid Credentials") [] [adminsEntry]) cfgA
    false false "alice" "secret" "Invalid Credentials" rfl rfl rfl

/-- C3: the identity Login binds as is userAttribute, "=", username, ",",
userBaseDN when realmDomain is empty, and username, "@", realmDomain when it
is not, whatever userAttribute and userBaseDN are; once the connection is
opened, Login makes exactly one bind, with this identity and the supplied
password unchanged. -/
theorem Login_bind_identity {σ : Type} (w : World σ) (cfg : ConfigEntry) (c : σ)
    (username password : String)
    (hcfg : w.Config = .ok (some cfg)) (hdial : w.DialLDAP cfg = .ok c) :
    ∃ (ss : List SearchRequest) (gs : List String),
      (Login w username password).trace =
        [.dial,
          .bind
            (if cfg.RealmDomain = "" then
              cfg.UserAttr ++ "=" ++ username ++ "," ++ cfg.UserDN
            else username ++ "@" ++ cfg.RealmDomain)
            password] ++ ss.map Event.search ++ gs.map Event.group := by
  obtain ⟨ss, hss⟩ := authenticate_trace w cfg c username password hcfg hdial
  obtain ⟨gs, hgs⟩ := Login_trace w username password
  refine ⟨ss, gs, ?_⟩
  rw [hgs, hss]
  have hid : bindDN cfg username =
      (if cfg.RealmDomain = "" then cfg.UserAttr ++ "=" ++ username ++ "," ++ cfg.UserDN
        else username ++ "@" ++ cfg.RealmDomain) := by
    unfold bindDN
    by_cases h : cfg.RealmDomain = ""
    · simp [h]
    · have h0 : cfg.RealmDomain.length ≠ 0 := fun e => h ((length_eq_zero_iff _).mp e)
      simp [h, h0]
  rw [hid]

/-- Witness of C3: the bind of scenario A, and the bind with a realm. -/
theorem Login_bind_identity_witness :
    (∃ (ss : List SearchRequest) (gs : List String),
      (Login (scenario cfgA none [] [adminsEntry]) "alice" "secret").trace =
        [.dial, .bind "uid=alice,ou=People,dc=example,dc=com" "secret"]
          ++ ss.map Event.search ++ gs.map Event.group) ∧
    (Login (scenario cfgRealm none [aliceEntry] [adminsEntry]) "alice" "secret").trace.take 2 =
      [.dial, .bind "alice@example.com" "secret"] :=
  ⟨Login_bind_identity (scenario cfgA none [] [adminsEntry]) cfgA false "alice" "secret"
    rfl rfl, by decide⟩

/-- C4: a login that reaches the decision of line 121 (the group search has
succeeded and the loop has accumulated the list `st.policies`) fails with the
error response "user is not member of any authorized group" and no policies
exactly when the accumulated list is empty; it fails this way when no entry
was returned and when every returned group is unmapped in the group store;
and every successful result of Login is a non-empty policy list. -/
theorem Login_no_authorized_groups {σ : Type} (w : World σ) (username password : String) :
    (∀ (sresult : SearchResult) (c : σ) (tr : List Event) (st : LoopState),
      authenticate w username password = .groups sresult c tr →
      groupLoop w.Group sresult.Entries ⟨[], [], tr⟩ = .done st →
      (((Login w username password).outcome =
            .ret [] (some (ErrorResponse "user is not member of any authorized group")) none
          ↔ st.policies = []) ∧
        (sresult.Entries = [] →
          (Login w username password).outcome =
            .ret [] (some (ErrorResponse "user is not member of any authorized group")) none) ∧
        ((∀ e ∈ sresult.Entries, w.Group (groupName e.DN) = .ok none) →
          (Login w username password).outcome =
            .ret [] (some (ErrorResponse "user is not member of any authorized group")) none))) ∧
    (∀ ps : List String,
      (Login w username password).outcome = .ret ps none none → ps ≠ []) := by
  constructor
  · intro sresult c tr st hreach hloop
    have hout : (Login w username password).outcome =
        if st.policies = [] then
          .ret [] (some (ErrorResponse "user is not member of any authorized group")) none
        else .ret st.policies none none := by
      rw [Login_of_groups w username password sresult c tr hreach]
      simp only [aggregate, hloop, List.length_eq_zero]
      split_ifs <;> rfl
    have hpol := groupLoop_done_policies w.Group sresult.Entries _ st hloop
    simp only [List.nil_append] at hpol
    refine ⟨?_, ?_, ?_⟩
    · rw [hout]
      by_cases h0 : st.policies = []
      · simp [h0]
      · simp [h0]
    · intro hnil
      rw [hout, hpol, hnil]
      rfl
    · intro hun
      rw [hout, hpol, granted_unmapped w.Group sresult.Entries hun]
      rfl
  · intro ps hps
    cases hau : authenticate w username password with
    | done r =>
      rw [Login_of_done w username password r hau] at hps
      rcases authenticate_done_outcome w username password r hau with h | ⟨t, h⟩ | ⟨e, h⟩
      all_goals
        rw [h] at hps
        simp [errorReturn] at hps
    | groups sresult c tr =>
      rw [Login_of_groups w username password sresult c tr hau] at hps
      rcases aggregate_outcome w.Group sresult c tr with h | h | ⟨qs, hq, h⟩
      · rw [h] at hps; cases hps
      · rw [h] at hps; simp [errorReturn] at hps
      · rw [h] at hps
        cases hps
        exact hq

/-- Witness of C4: the only returned group is unmapped, so the login fails
for want of an authorized group. -/
theorem Login_no_authorized_groups_witness :
    (Login (scenario cfgA none [] [usersEntry]) "alice" "secret").outcome =
      .ret [] (some (ErrorResponse "user is not member of any authorized group")) none :=
  ((Login_no_authorized_groups (scenario cfgA none [] [usersEntry]) "alice" "secret").1
    ⟨[usersEntry]⟩ true
    [.dial, .bind (bindDN cfgA "alice") "secret",
      .search (groupSearchRequest cfgA "alice" (bindDN cfgA "alice"))]
    ⟨["users"], [],
      [.dial, .bind (bindDN cfgA "alice") "secret",
        .search (groupSearchRequest cfgA "alice" (bindDN cfgA "alice")), .group "users"]⟩
    rfl rfl).2.2
    (fun e he => by
      cases he with
      | head => rfl
      | tail _ h => cases h)

/-- C5: with a realm, when the user search succeeds with no entry, Login does
not return an error: it indexes the empty result list and panics. -/
theorem Login_realm_no_user_panics :
    (Login (scenario cfgRealm none [] [adminsEntry]) "alice" "secret").outcome = .panic ∧
    (Login (scenario cfgRealm none [] [adminsEntry]) "alice" "secret").trace =
      [.dial, .bind "alice@example.com" "secret",
        .search ⟨"ou=People,dc=example,dc=com", 2,
          "(userPrincipalName=alice@example.com)", ["distinguishedName"]⟩] := by
  decide

/-- C6: with a realm, when the bind succeeds and the user search returns
more than one entry, Login returns no policies and the error response
"Too many LDAP user results"; the calls made are the dial, the bind and the
user search only, so no group search is issued and the group store is not
consulted. -/
theorem Login_ambiguous_user {σ : Type} (w : World σ) (cfg : ConfigEntry) (c c1 c2 : σ)
    (username password : String) (user : SearchResult)
    (hcfg : w.Config = .ok (some cfg)) (hdial : w.DialLDAP cfg = .ok c)
    (hrealm : cfg.RealmDomain ≠ "")
    (hbind : w.Bind c (bindDN cfg username) password = (none, c1))
    (hsearch : w.Search c1 (userSearchRequest cfg username) = (.ok user, c2))
    (hmany : 1 < user.Entries.length) :
    (Login w username password).outcome =
      .ret [] (some (ErrorResponse "Too many LDAP user results")) none ∧
    (Login w username password).trace =
      [.dial, .bind (username ++ "@" ++ cfg.RealmDomain) password,
        .search (userSearchRequest cfg username)] := by
  have h := authenticate_realm w cfg c c1 username password hcfg hdial hrealm hbind
  rw [hsearch] at h
  simp only [gt_iff_lt, hmany, if_true] at h
  rw [Login_of_done w username password _ h, bindDN_realm cfg username hrealm]
  exact ⟨rfl, rfl⟩

/-- Witness of C6: scenario C, the user search returns two entries. -/
theorem Login_ambiguous_user_witness :
    (Login (scenario cfgRealm none [aliceEntry, aliceEntry] [adminsEntry])
        "alice" "secret").outcome =
      .ret [] (some (ErrorResponse "Too many LDAP user results")) none ∧
    (Login (scenario cfgRealm none [aliceEntry, aliceEntry] [adminsEntry])
        "alice" "secret").trace =
      [.dial, .bind "alice@example.com" "secret",
        .search ⟨"ou=People,dc=example,dc=com", 2,
          "(userPrincipalName=alice@example.com)", ["distinguishedName"]⟩] :=
  Login_ambiguous_user (scenario cfgRealm none [aliceEntry, aliceEntry] [adminsEntry])
    cfgRealm false true true "alice" "secret" ⟨[aliceEntry, aliceEntry]⟩
    rfl rfl (by decide) rfl rfl (by decide)

/-- The value `GetAttributeValue` reads: the first value of the first
attribute of the entry that has the given name. -/
theorem GetAttributeValue_first (e : Entry) (attrName : String)
    (pre post : List EntryAttribute) (v : String) (vs : List String)
    (hattrs : e.Attributes = pre ++ ⟨attrName, v :: vs⟩ :: post)
    (hpre : ∀ a ∈ pre, a.Name ≠ attrName) :
    e.GetAttributeValue attrName = v := by
  have hfind : ∀ pre2 : List EntryAttribute, (∀ a ∈ pre2, a.Name ≠ attrName) →
      (pre2 ++ (⟨attrName, v :: vs⟩ : EntryAttribute) :: post).find?
        (fun a => a.Name == attrName) = some ⟨attrName, v :: vs⟩ := by
    intro pre2
    induction pre2 with
    | nil => intro _; simp
    | cons a pre2 ih =>
      intro h2
      have ha : (a.Name == attrName) = false := by
        simpa using h2 a (List.mem_cons_self _ _)
      rw [List.cons_append, List.find?_cons, ha]
      exact ih (fun x hx => h2 x (List.mem_cons_of_mem _ hx))
  unfold Entry.GetAttributeValue Entry.GetAttributeValues
  rw [hattrs, hfind pre hpre]

/-- An entry without an attribute of the given name has the empty string as
its value. -/
theorem GetAttributeValue_absent (e : Entry) (attrName : String)
    (h : ∀ a ∈ e.Attributes, a.Name ≠ attrName) :
    e.GetAttributeValue attrName = "" := by
  have hfind : e.Attributes.find? (fun a => a.Name == attrName) = none := by
    rw [List.find?_eq_none]
    intro a ha
    simpa using h a ha
  unfold Entry.GetAttributeValue Entry.GetAttributeValues
  rw [hfind]

/-- C7: with a realm, after a successful bind Login issues the user search
with base userBaseDN, scope 2, the filter "(userPrincipalName=" username "@"
realmDomain ")" and the requested attribute distinguishedName; when that
search returns exactly one entry, the next call is the group search whose
member= and uniqueMember= terms hold the value of the attribute
distinguishedName of that entry: the first value `v` of the first attribute
of the entry named distinguishedName, whatever the name of the entry and the
bound principal are, and the empty string when the entry has no such
attribute. -/
theorem Login_realm_resolution {σ : Type} (w : World σ) (cfg : ConfigEntry) (c c1 : σ)
    (username password : String)
    (hcfg : w.Config = .ok (some cfg)) (hdial : w.DialLDAP cfg = .ok c)
    (hrealm : cfg.RealmDomain ≠ "")
    (hbind : w.Bind c (bindDN cfg username) password = (none, c1)) :
    userSearchRequest cfg username =
      ⟨cfg.UserDN, 2, "(userPrincipalName=" ++ username ++ "@" ++ cfg.RealmDomain ++ ")",
        ["distinguishedName"]⟩ ∧
    (∃ rest : List Event,
      (Login w username password).trace =
        [.dial, .bind (username ++ "@" ++ cfg.RealmDomain) password,
          .search (userSearchRequest cfg username)] ++ rest) ∧
    (∀ (e : Entry) (c2 : σ),
      w.Search c1 (userSearchRequest cfg username) = (.ok ⟨[e]⟩, c2) →
      ∃ gs : List String,
        (Login w username password).trace =
          [.dial, .bind (username ++ "@" ++ cfg.RealmDomain) password,
            .search (userSearchRequest cfg username),
            .search ⟨cfg.GroupDN, 2,
              "(|(memberUid=" ++ username ++ ")(member="
                ++ e.GetAttributeValue "distinguishedName" ++ ")(uniqueMember="
                ++ e.GetAttributeValue "distinguishedName" ++ "))", []⟩]
            ++ gs.map Event.group) ∧
    (∀ (e : Entry) (c2 : σ) (pre post : List EntryAttribute) (v : String)
        (vs : List String),
      w.Search c1 (userSearchRequest cfg username) = (.ok ⟨[e]⟩, c2) →
      e.Attributes = pre ++ ⟨"distinguishedName", v :: vs⟩ :: post →
      (∀ a ∈ pre, a.Name ≠ "distinguishedName") →
      ∃ gs : List String,
        (Login w username password).trace =
          [.dial, .bind (username ++ "@" ++ cfg.RealmDomain) password,
            .search (userSearchRequest cfg username),
            .search ⟨cfg.GroupDN, 2,
              "(|(memberUid=" ++ username ++ ")(member=" ++ v ++ ")(uniqueMember="
                ++ v ++ "))", []⟩]
            ++ gs.map Event.group) ∧
    (∀ (e : Entry) (c2 : σ),
      w.Search c1 (userSearchRequest cfg username) = (.ok ⟨[e]⟩, c2) →
      (∀ a ∈ e.Attributes, a.Name ≠ "distinguishedName") →
      ∃ gs : List String,
        (Login w username password).trace =
          [.dial, .bind (username ++ "@" ++ cfg.RealmDomain) password,
            .search (userSearchRequest cfg username),
            .search ⟨cfg.GroupDN, 2,
              "(|(memberUid=" ++ username ++ ")(member=" ++ "" ++ ")(uniqueMember="
                ++ "" ++ "))", []⟩]
            ++ gs.map Event.group) := by
  have h := authenticate_realm w cfg c c1 username password hcfg hdial hrealm hbind
  rw [bindDN_realm cfg username hrealm] at h
  obtain ⟨gs, hgs⟩ := Login_trace w username password
  have hone : ∀ (e : Entry) (c2 : σ),
      w.Search c1 (userSearchRequest cfg username) = (.ok ⟨[e]⟩, c2) →
      ∃ gs : List String,
        (Login w username password).trace =
          [.dial, .bind (username ++ "@" ++ cfg.RealmDomain) password,
            .search (userSearchRequest cfg username),
            .search ⟨cfg.GroupDN, 2,
              "(|(memberUid=" ++ username ++ ")(member="
                ++ e.GetAttributeValue "distinguishedName" ++ ")(uniqueMember="
                ++ e.GetAttributeValue "distinguishedName" ++ "))", []⟩]
            ++ gs.map Event.group := by
    intro e c2 hsearch
    rw [hsearch] at h
    simp only [List.length_singleton, gt_iff_lt, lt_self_iff_false, if_false,
      List.getElem?_cons_zero] at h
    obtain ⟨gs2, hgs2⟩ := Login_searchGroups_trace w cfg username password _ c2 _ h
    exact ⟨gs2, by rw [hgs2]; rfl⟩
  refine ⟨rfl, ?_, hone, ?_, ?_⟩
  · rw [hgs, h]
    split
    · exact ⟨_, rfl⟩
    · split
      · exact ⟨_, rfl⟩
      · split
        · exact ⟨_, rfl⟩
        · rw [searchGroups_trace, List.append_assoc]
          exact ⟨_, rfl⟩
  · intro e c2 pre post v vs hsearch hattrs hpre
    obtain ⟨gs2, hgs2⟩ := hone e c2 hsearch
    rw [GetAttributeValue_first e "distinguishedName" pre post v vs hattrs hpre] at hgs2
    exact ⟨gs2, hgs2⟩
  · intro e c2 hsearch habsent
    obtain ⟨gs2, hgs2⟩ := hone e c2 hsearch
    rw [GetAttributeValue_absent e "distinguishedName" habsent] at hgs2
    exact ⟨gs2, hgs2⟩

/-- Witness of C7: the user search returns the one entry of bob, whose name
in the directory is not the value of its attribute distinguishedName; the
group search asks for the members with the first value of that attribute,
not with the name of the entry and not with the principal that was bound. -/
theorem Login_realm_resolution_witness :
    (Login (scenario cfgRealm none [bobEntry] [adminsEntry]) "bob" "secret").trace =
      [.dial, .bind "bob@example.com" "secret",
        .search ⟨"ou=People,dc=example,dc=com", 2,
          "(userPrincipalName=bob@example.com)", ["distinguishedName"]⟩,
        .search ⟨"ou=Group,dc=example,dc=com", 2,
          "(|(memberUid=bob)(member=CN=Bob,OU=Staff,DC=example,DC=com)(uniqueMember=CN=Bob,OU=Staff,DC=example,DC=com))",
          []⟩,
        .group "admins"] ∧
    bobEntry.DN ≠ "CN=Bob,OU=Staff,DC=example,DC=com" ∧
    (∃ gs : List String,
      (Login (scenario cfgRealm none [bobEntry] [adminsEntry]) "bob" "secret").trace =
        [.dial, .bind ("bob" ++ "@" ++ cfgRealm.RealmDomain) "secret",
          .search (userSearchRequest cfgRealm "bob"),
          .search ⟨cfgRealm.GroupDN, 2,
            "(|(memberUid=" ++ "bob" ++ ")(member="
              ++ "CN=Bob,OU=Staff,DC=example,DC=com" ++ ")(uniqueMember="
              ++ "CN=Bob,OU=Staff,DC=example,DC=com" ++ "))", []⟩]
          ++ gs.map Event.group) :=
  ⟨by decide, by decide,
    (Login_realm_resolution (scenario cfgRealm none [bobEntry] [adminsEntry]) cfgRealm
      false true "bob" "secret" rfl rfl (by decide) rfl).2.2.2.1 bobEntry true
      [⟨"mail", ["bob@example.com"]⟩] [⟨"distinguishedName", ["CN=Other"]⟩]
      "CN=Bob,OU=Staff,DC=example,DC=com" ["CN=Robert"] rfl rfl (by decide)⟩

/-- C8: without a realm, after a successful bind Login issues exactly one
search, the group search with base groupBaseDN, scope 2 and the filter
"(|(memberUid=" username ")(member=" identity ")(uniqueMember=" identity "))",
where identity is the string that was bound, userAttribute "=" username ","
userBaseDN; every later call is a group-store lookup. -/
theorem Login_group_search {σ : Type} (w : World σ) (cfg : ConfigEntry) (c c1 : σ)
    (username password : String)
    (hcfg : w.Config = .ok (some cfg)) (hdial : w.DialLDAP cfg = .ok c)
    (hrealm : cfg.RealmDomain = "")
    (hbind : w.Bind c (bindDN cfg username) password = (none, c1)) :
    ∃ gs : List String,
      (Login w username password).trace =
        [.dial, .bind (cfg.UserAttr ++ "=" ++ username ++ "," ++ cfg.UserDN) password,
          .search ⟨cfg.GroupDN, 2,
            "(|(memberUid=" ++ username ++ ")(member="
              ++ (cfg.UserAttr ++ "=" ++ username ++ "," ++ cfg.UserDN) ++ ")(uniqueMember="
              ++ (cfg.UserAttr ++ "=" ++ username ++ "," ++ cfg.UserDN) ++ "))", []⟩]
          ++ gs.map Event.group := by
  have h := authenticate_plain w cfg c c1 username password hcfg hdial hrealm hbind
  obtain ⟨gs, hgs⟩ := Login_searchGroups_trace w cfg username password _ c1 _ h
  rw [bindDN_plain cfg username hrealm] at hgs
  exact ⟨gs, by rw [hgs]; rfl⟩

/-- Witness of C8: the one search of scenario A. -/
theorem Login_group_search_witness :
    (Login (scenario cfgA none [] [adminsEntry]) "alice" "secret").trace =
      [.dial, .bind "uid=alice,ou=People,dc=example,dc=com" "secret",
        .search ⟨"ou=Group,dc=example,dc=com", 2,
          "(|(memberUid=alice)(member=uid=alice,ou=People,dc=example,dc=com)(uniqueMember=uid=alice,ou=People,dc=example,dc=com))",
          []⟩,
        .group "admins"] ∧
    (∃ gs : List String,
      (Login (scenario cfgA none [] [adminsEntry]) "alice" "secret").trace =
        [.dial, .bind (cfgA.UserAttr ++ "=" ++ "alice" ++ "," ++ cfgA.UserDN) "secret",
          .search ⟨cfgA.GroupDN, 2,
            "(|(memberUid=" ++ "alice" ++ ")(member="
              ++ (cfgA.UserAttr ++ "=" ++ "alice" ++ "," ++ cfgA.UserDN) ++ ")(uniqueMember="
              ++ (cfgA.UserAttr ++ "=" ++ "alice" ++ "," ++ cfgA.UserDN) ++ "))", []⟩]
          ++ gs.map Event.group) :=
  ⟨by decide,
    Login_group_search (scenario cfgA none [] [adminsEntry]) cfgA false true
      "alice" "secret" rfl rfl rfl rfl⟩

/-- C9: for every distinguished name whose first comma-separated component
contains "=", the group name the code extracts is the part of that component
after its first "=": later "=" stay in the name and everything from the
first comma on is discarded; a login that reaches the group entries looks up
exactly these names, in the order of the entries; and the name extracted from
"cn=admins,ou=Group,dc=example,dc=com" is "admins". -/
theorem Login_group_name {σ : Type} (w : World σ) (username password : String) :
    (∀ DN : String, wellFormed DN → gnameOf DN = some (groupName DN)) ∧
    (∀ (DN : String) (a b rest : List Char),
      DN.data = a ++ '=' :: b ++ rest → '=' ∉ a → ',' ∉ a → ',' ∉ b →
      (rest = [] ∨ rest.head? = some ',') →
      gnameOf DN = some (String.mk b)) ∧
    (∀ (sresult : SearchResult) (c : σ) (tr : List Event),
      authenticate w username password = .groups sresult c tr →
      (∀ e ∈ sresult.Entries, wellFormed e.DN) →
      (Login w username password).trace =
        tr ++ sresult.Entries.map (fun e => Event.group (groupName e.DN))) ∧
    gnameOf "cn=admins,ou=Group,dc=example,dc=com" = some "admins" ∧
    gnameOf "cn=a=b,ou=Group" = some "a=b" := by
  refine ⟨?_, ?_, ?_, by decide, by decide⟩
  · intro DN h
    rw [gnameOf_eq, if_pos h]
  · intro DN a b rest hDN ha hac hbc hrest
    obtain ⟨hw, hg⟩ := groupName_of_parts DN a b rest hDN ha hac hbc hrest
    rw [gnameOf_eq, if_pos hw, hg]
  · intro sresult c tr hreach hwf
    rw [Login_of_groups w username password sresult c tr hreach,
      aggregate_wellFormed w.Group sresult c tr hwf]

/-- Witness of C9: the two groups returned are looked up as `users` and
`admins`, in this order. -/
theorem Login_group_name_witness :
    (Login (scenario cfgA none [] [usersEntry, adminsEntry]) "alice" "secret").trace =
      [.dial, .bind (bindDN cfgA "alice") "secret",
        .search (groupSearchRequest cfgA "alice" (bindDN cfgA "alice"))]
        ++ [usersEntry, adminsEntry].map (fun e => Event.group (groupName e.DN)) ∧
    gnameOf "cn=admins,ou=Group,dc=example,dc=com" = some (String.mk "admins".data) :=
  ⟨(Login_group_name (scenario cfgA none [] [usersEntry, adminsEntry]) "alice" "secret").2.2.1
      ⟨[usersEntry, adminsEntry]⟩ true _ rfl (by decide),
    (Login_group_name (scenario cfgA none [] [usersEntry, adminsEntry]) "alice" "secret").2.1
      "cn=admins,ou=Group,dc=example,dc=com" "cn".data "admins".data
      ",ou=Group,dc=example,dc=com".data rfl (by decide) (by decide) (by decide)
      (Or.inr rfl)⟩

/-- C10: when the group search returns an entry whose distinguished name has
no "=" in its first comma-separated component (the empty name, or
"admins,ou=Group"), Login does not return an error: the index expression of
line 113 is out of range and Login panics. -/
theorem Login_malformed_DN_panics :
    (Login (scenario cfgA none [] [⟨"", []⟩]) "alice" "secret").outcome = .panic ∧
    (Login (scenario cfgA none [] [⟨"admins,ou=Group", []⟩]) "alice" "secret").outcome
      = .panic ∧
    (Login (scenario cfgA none [] [adminsEntry, ⟨"admins,ou=Group", []⟩])
      "alice" "secret").outcome = .panic := by
  decide

/-- C11: when the configuration load succeeds with an absent configuration,
Login returns no policies and the error response "ldap backend not
configured", and it makes no call at all: no connection is dialled, no bind
or search is issued and the group store is not consulted. -/
theorem Login_config_missing {σ : Type} (w : World σ) (username password : String)
    (hcfg : w.Config = .ok none) :
    (Login w username password).outcome =
      .ret [] (some (ErrorResponse "ldap backend not configured")) none ∧
    (Login w username password).trace = [] ∧
    (Login w username password).conn = none := by
  have h : authenticate w username password =
      .done ⟨errorReturn "ldap backend not configured", [], none⟩ := by
    simp [authenticate, hcfg]
  rw [Login_of_done w username password _ h]
  exact ⟨rfl, rfl, rfl⟩

/-- Witness of C11: a login before any configuration has been set. -/
theorem Login_config_missing_witness :
    (Login unconfigured "alice" "secret").outcome =
      .ret [] (some (ErrorResponse "ldap backend not configured")) none ∧
    (Login unconfigured "alice" "secret").trace = [] ∧
    (Login unconfigured "alice" "secret").conn = none :=
  Login_config_missing unconfigured "alice" "secret" rfl

/-- C12: when the bind has succeeded (and, with a realm, the user search has
returned exactly one entry) and the group search returns an error, Login
returns no policies and the error response "LDAP search failed: " followed
by the text of that error; the group search is its last call, issued once,
and the group store is not consulted. -/
theorem Login_search_failed {σ : Type} (w : World σ) (cfg : ConfigEntry)
    (c c1 : σ) (username password : String)
    (hcfg : w.Config = .ok (some cfg)) (hdial : w.DialLDAP cfg = .ok c)
    (hbind : w.Bind c (bindDN cfg username) password = (none, c1)) :
    (cfg.RealmDomain = "" →
      ∀ (err : String) (c2 : σ),
        w.Search c1 (groupSearchRequest cfg username (bindDN cfg username))
          = (.error err, c2) →
        (Login w username password).outcome =
          .ret [] (some (ErrorResponse ("LDAP search failed: " ++ err))) none ∧
        (Login w username password).trace =
          [.dial, .bind (bindDN cfg username) password,
            .search (groupSearchRequest cfg username (bindDN cfg username))]) ∧
    (cfg.RealmDomain ≠ "" →
      ∀ (e : Entry) (err : String) (c2 c3 : σ),
        w.Search c1 (userSearchRequest cfg username) = (.ok ⟨[e]⟩, c2) →
        w.Search c2
            (groupSearchRequest cfg username (e.GetAttributeValue "distinguishedName"))
          = (.error err, c3) →
        (Login w username password).outcome =
          .ret [] (some (ErrorResponse ("LDAP search failed: " ++ err))) none ∧
        (Login w username password).trace =
          [.dial, .bind (bindDN cfg username) password,
            .search (userSearchRequest cfg username),
            .search (groupSearchRequest cfg username
              (e.GetAttributeValue "distinguishedName"))]) := by
  constructor
  · intro hrealm err c2 hsearch
    have h := authenticate_plain w cfg c c1 username password hcfg hdial hrealm hbind
    simp only [searchGroups, hsearch] at h
    rw [Login_of_done w username password _ h]
    exact ⟨rfl, rfl⟩
  · intro hrealm e err c2 c3 huser hsearch
    have h := authenticate_realm w cfg c c1 username password hcfg hdial hrealm hbind
    rw [huser] at h
    simp only [List.length_singleton, gt_iff_lt, lt_self_iff_false, if_false,
      List.getElem?_cons_zero, searchGroups, hsearch] at h
    rw [Login_of_done w username password _ h]
    exact ⟨rfl, rfl⟩

/-- Witness of C12: the group search fails without a realm and with one. -/
theorem Login_search_failed_witness :
    ((Login (searchFails cfgA [] "timeout") "alice" "secret").outcome =
        .ret [] (some (ErrorResponse ("LDAP search failed: " ++ "timeout"))) none ∧
      (Login (searchFails cfgA [] "timeout") "alice" "secret").trace =
        [.dial, .bind (bindDN cfgA "alice") "secret",
          .search (groupSearchRequest cfgA "alice" (bindDN cfgA "alice"))]) ∧
    ((Login (searchFails cfgRealm [aliceEntry] "timeout") "alice" "secret").outcome =
        .ret [] (some (ErrorResponse ("LDAP search failed: " ++ "timeout"))) none ∧
      (Login (searchFails cfgRealm [aliceEntry] "timeout") "alice" "secret").trace =
        [.dial, .bind (bindDN cfgRealm "alice") "secret",
          .search (userSearchRequest cfgRealm "alice"),
          .search (groupSearchRequest cfgRealm "alice"
            (aliceEntry.GetAttributeValue "distinguishedName"))]) :=
  ⟨(Login_search_failed (searchFails cfgA [] "timeout") cfgA false true
      "alice" "secret" rfl rfl rfl).1 rfl "timeout" true rfl,
    (Login_search_failed (searchFails cfgRealm [aliceEntry] "timeout") cfgRealm
      false true "alice" "secret" rfl rfl rfl).2 (by decide) aliceEntry "timeout" true true
      rfl rfl⟩

/-- Once a connection is opened, every run ends with a connection. -/
theorem Login_conn {σ : Type} (w : World σ) (cfg : ConfigEntry) (c : σ)
    (username password : String)
    (hcfg : w.Config = .ok (some cfg)) (hdial : w.DialLDAP cfg = .ok c) :
    ∃ c2 : σ, (Login w username password).conn = some c2 := by
  have hauth : (∃ (r : Run σ) (c2 : σ),
        authenticate w username password = .done r ∧ r.conn = some c2) ∨
      (∃ (sresult : SearchResult) (c2 : σ) (tr : List Event),
        authenticate w username password = .groups sresult c2 tr) := by
    unfold authenticate searchGroups
    simp only [hcfg, hdial]
    repeat' split
    all_goals simp
  rcases hauth with ⟨r, c2, hr, hc⟩ | ⟨sresult, c2, tr, hg⟩
  · exact ⟨c2, by rw [Login_of_done w username password r hr, hc]⟩
  · refine ⟨c2, ?_⟩
    rw [Login_of_groups w username password sresult c2 tr hg]
    unfold aggregate
    split
    · rfl
    · split <;> rfl

/-- Once a connection is opened, no call of a run is the release of the
connection. -/
theorem Login_no_close {σ : Type} (w : World σ) (cfg : ConfigEntry) (c : σ)
    (username password : String)
    (hcfg : w.Config = .ok (some cfg)) (hdial : w.DialLDAP cfg = .ok c) :
    Event.close ∉ (Login w username password).trace := by
  obtain ⟨ss, hss⟩ := authenticate_trace w cfg c username password hcfg hdial
  obtain ⟨gs, hgs⟩ := Login_trace w username password
  rw [hgs, hss]
  simp

/-- C13, as the code has it: in every login in which a connection is
opened, Login never releases it; on the success path and on every failure
branch the run ends with the connection still held and without a call of
`Close`. -/
theorem Login_connection_held {σ : Type} (w : World σ) (cfg : ConfigEntry) (c : σ)
    (username password : String)
    (hcfg : w.Config = .ok (some cfg)) (hdial : w.DialLDAP cfg = .ok c) :
    (Login w username password).status = .held ∧
    Event.close ∉ (Login w username password).trace := by
  obtain ⟨c2, hc2⟩ := Login_conn w cfg c username password hcfg hdial
  have hno := Login_no_close w cfg c username password hcfg hdial
  refine ⟨?_, hno⟩
  unfold Run.status
  rw [hc2]
  simp only [hno, if_false]

/-- Witness of C13 as the code has it: the connection of a rejected bind is
still held when Login returns. -/
theorem Login_connection_held_witness :
    (Login (scenario cfgA (some "Invalid Credentials") [] [adminsEntry])
      "alice" "secret").status = .held ∧
    Event.close ∉ (Login (scenario cfgA (some "Invalid Credentials") [] [adminsEntry])
      "alice" "secret").trace :=
  Login_connection_held (scenario cfgA (some "Invalid Credentials") [] [adminsEntry]) cfgA
    false "alice" "secret" rfl rfl

/-- C13 as stated fails: the successful login of scenario A opens a
connection and ends with it held, not released. -/
theorem Login_connection_not_released :
    (Login (scenario cfgA none [] [adminsEntry]) "alice" "secret").outcome =
      .ret ["admin-policy"] none none ∧
    (Login (scenario cfgA none [] [adminsEntry]) "alice" "secret").conn = some true ∧
    (Login (scenario cfgA none [] [adminsEntry]) "alice" "secret").trace.getLast?
      = some (.group "admins") ∧
    ¬ ((Login (scenario cfgA none [] [adminsEntry]) "alice" "secret").status
      = .released) := by
  decide

/-! ### The sequence of directory operations -/

theorem dirOps_groups (gs : List String) : dirOps (gs.map Event.group) = [] := by
  induction gs with
  | nil => rfl
  | cons g gs ih =>
    simp only [dirOps, List.map_cons] at ih ⊢
    rw [List.filter_cons]
    simp [Event.isDirOp]

theorem dirOps_Login {σ : Type} (w : World σ) (username password : String) :
    dirOps (Login w username password).trace =
      dirOps (authenticate w username password).trace := by
  obtain ⟨gs, hgs⟩ := Login_trace w username password
  have h := dirOps_groups gs
  unfold dirOps at h ⊢
  rw [hgs, List.filter_append, h, List.append_nil]

theorem authenticate_no_config {σ : Type} (w : World σ) (username password : String)
    (h : ∀ cfg, w.Config ≠ .ok (some cfg)) :
    (authenticate w username password).trace = [] := by
  unfold authenticate
  split
  · rfl
  · rfl
  · rename_i cfg hc
    exact absurd hc (h cfg)

theorem authenticate_dial_error {σ : Type} (w : World σ) (cfg : ConfigEntry)
    (username password err : String)
    (hcfg : w.Config = .ok (some cfg)) (hdial : w.DialLDAP cfg = .error err) :
    (authenticate w username password).trace = [.dial] := by
  simp [authenticate, hcfg, hdial, Phase.trace]

theorem authenticate_bind_error {σ : Type} (w : World σ) (cfg : ConfigEntry) (c c1 : σ)
    (username password err : String)
    (hcfg : w.Config = .ok (some cfg)) (hdial : w.DialLDAP cfg = .ok c)
    (hbind : w.Bind c (bindDN cfg username) password = (some err, c1)) :
    (authenticate w username password).trace =
      [.dial, .bind (bindDN cfg username) password] := by
  simp [authenticate, hcfg, hdial, hbind, Phase.trace]

/-- With a realm, after a successful bind: the calls stop at the user search
unless it returns exactly one entry, and then the group search follows. -/
theorem authenticate_realm_trace {σ : Type} (w : World σ) (cfg : ConfigEntry) (c c1 : σ)
    (username password : String)
    (hcfg : w.Config = .ok (some cfg)) (hdial : w.DialLDAP cfg = .ok c)
    (hrealm : cfg.RealmDomain ≠ "")
    (hbind : w.Bind c (bindDN cfg username) password = (none, c1)) :
    (∀ (err : String) (c2 : σ),
      w.Search c1 (userSearchRequest cfg username) = (.error err, c2) →
      (authenticate w username password).trace =
        [.dial, .bind (bindDN cfg username) password,
          .search (userSearchRequest cfg username)]) ∧
    (∀ (user : SearchResult) (c2 : σ),
      w.Search c1 (userSearchRequest cfg username) = (.ok user, c2) →
      user.Entries.length ≠ 1 →
      (authenticate w username password).trace =
        [.dial, .bind (bindDN cfg username) password,
          .search (userSearchRequest cfg username)]) ∧
    (∀ (e : Entry) (c2 : σ),
      w.Search c1 (userSearchRequest cfg username) = (.ok ⟨[e]⟩, c2) →
      (authenticate w username password).trace =
        [.dial, .bind (bindDN cfg username) password,
          .search (userSearchRequest cfg username),
          .search (groupSearchRequest cfg username
            (e.GetAttributeValue "distinguishedName"))]) := by
  have h := authenticate_realm w cfg c c1 username password hcfg hdial hrealm hbind
  refine ⟨?_, ?_, ?_⟩
  · intro err c2 hs
    rw [hs] at h
    rw [h]; rfl
  · intro user c2 hs hlen
    rw [hs] at h
    rw [h]
    rcases user with ⟨entries⟩
    cases entries with
    | nil => rfl
    | cons e es =>
      cases es with
      | nil => exact absurd rfl hlen
      | cons e2 es => simp [Phase.trace]
  · intro e c2 hs
    rw [hs] at h
    simp only [List.length_singleton, gt_iff_lt, lt_self_iff_false, if_false,
      List.getElem?_cons_zero] at h
    rw [h, searchGroups_trace]
    rfl

theorem authenticate_plain_trace {σ : Type} (w : World σ) (cfg : ConfigEntry) (c c1 : σ)
    (username password : String)
    (hcfg : w.Config = .ok (some cfg)) (hdial : w.DialLDAP cfg = .ok c)
    (hrealm : cfg.RealmDomain = "")
    (hbind : w.Bind c (bindDN cfg username) password = (none, c1)) :
    (authenticate w username password).trace =
      [.dial, .bind (bindDN cfg username) password,
        .search (groupSearchRequest cfg username (bindDN cfg username))] := by
  rw [authenticate_plain w cfg c c1 username password hcfg hdial hrealm hbind,
    searchGroups_trace]
  rfl

/-- With a realm the directory operations are a prefix of bind, user search,
group search. -/
theorem authenticate_realm_ops {σ : Type} (w : World σ) (cfg : ConfigEntry)
    (username password : String)
    (hcfg : w.Config = .ok (some cfg)) (hrealm : cfg.RealmDomain ≠ "") :
    ∃ dn : String,
      dirOps (authenticate w username password).trace <+:
        [.bind (bindDN cfg username) password, .search (userSearchRequest cfg username),
          .search (groupSearchRequest cfg username dn)] := by
  cases hd : w.DialLDAP cfg with
  | error err =>
    rw [authenticate_dial_error w cfg username password err hcfg hd]
    exact ⟨"", _, rfl⟩
  | ok c =>
    rcases hb : w.Bind c (bindDN cfg username) password with ⟨r, c1⟩
    cases r with
    | some err =>
      rw [authenticate_bind_error w cfg c c1 username password err hcfg hd hb]
      exact ⟨"", _, rfl⟩
    | none =>
      obtain ⟨h1, h2, h3⟩ :=
        authenticate_realm_trace w cfg c c1 username password hcfg hd hrealm hb
      rcases hs : w.Search c1 (userSearchRequest cfg username) with ⟨res, c2⟩
      cases res with
      | error err =>
        rw [h1 err c2 hs]
        exact ⟨"", _, rfl⟩
      | ok user =>
        by_cases hlen : user.Entries.length = 1
        · rcases user with ⟨entries⟩
          obtain ⟨e, he⟩ := List.length_eq_one.mp hlen
          simp only at he
          subst he
          rw [h3 e c2 hs]
          exact ⟨_, [], rfl⟩
        · rw [h2 user c2 hs hlen]
          exact ⟨"", _, rfl⟩

/-- Without a realm the directory operations are a prefix of bind, group
search. -/
theorem authenticate_plain_ops {σ : Type} (w : World σ) (cfg : ConfigEntry)
    (username password : String)
    (hcfg : w.Config = .ok (some cfg)) (hrealm : cfg.RealmDomain = "") :
    dirOps (authenticate w username password).trace <+:
      [.bind (bindDN cfg username) password,
        .search (groupSearchRequest cfg username (bindDN cfg username))] := by
  cases hd : w.DialLDAP cfg with
  | error err =>
    rw [authenticate_dial_error w cfg username password err hcfg hd]
    exact ⟨_, rfl⟩
  | ok c =>
    rcases hb : w.Bind c (bindDN cfg username) password with ⟨r, c1⟩
    cases r with
    | some err =>
      rw [authenticate_bind_error w cfg c c1 username password err hcfg hd hb]
      exact ⟨_, rfl⟩
    | none =>
      rw [authenticate_plain_trace w cfg c c1 username password hcfg hd hrealm hb]
      exact ⟨[], rfl⟩

/-- C14: the directory operations of a run are a prefix of bind, user
search, group search when realmDomain is not empty and a prefix of bind,
group search when it is empty, so they are at most three and none is
repeated; a rejected bind is the only operation of its run, a user search
that returns an error or not exactly one entry is the last operation of its
run, and without a configuration or a connection there is no operation. -/
theorem Login_operation_sequence {σ : Type} (w : World σ) (username password : String) :
    ((dirOps (Login w username password).trace).length ≤ 3 ∧
      (dirOps (Login w username password).trace).Nodup) ∧
    (∀ cfg : ConfigEntry, w.Config = .ok (some cfg) →
      (cfg.RealmDomain ≠ "" →
        ∃ dn : String,
          dirOps (Login w username password).trace <+:
            [.bind (bindDN cfg username) password,
              .search (userSearchRequest cfg username),
              .search (groupSearchRequest cfg username dn)]) ∧
      (cfg.RealmDomain = "" →
        dirOps (Login w username password).trace <+:
          [.bind (bindDN cfg username) password,
            .search (groupSearchRequest cfg username (bindDN cfg username))])) ∧
    ((∀ cfg : ConfigEntry, w.Config ≠ .ok (some cfg)) →
      dirOps (Login w username password).trace = []) ∧
    (∀ (cfg : ConfigEntry) (err : String),
      w.Config = .ok (some cfg) → w.DialLDAP cfg = .error err →
      dirOps (Login w username password).trace = []) ∧
    (∀ (cfg : ConfigEntry) (c c1 : σ) (err : String),
      w.Config = .ok (some cfg) → w.DialLDAP cfg = .ok c →
      w.Bind c (bindDN cfg username) password = (some err, c1) →
      dirOps (Login w username password).trace =
        [.bind (bindDN cfg username) password]) ∧
    (∀ (cfg : ConfigEntry) (c c1 c2 : σ) (err : String),
      w.Config = .ok (some cfg) → w.DialLDAP cfg = .ok c → cfg.RealmDomain ≠ "" →
      w.Bind c (bindDN cfg username) password = (none, c1) →
      w.Search c1 (userSearchRequest cfg username) = (.error err, c2) →
      dirOps (Login w username password).trace =
        [.bind (bindDN cfg username) password,
          .search (userSearchRequest cfg username)]) ∧
    (∀ (cfg : ConfigEntry) (c c1 c2 : σ) (user : SearchResult),
      w.Config = .ok (some cfg) → w.DialLDAP cfg = .ok c → cfg.RealmDomain ≠ "" →
      w.Bind c (bindDN cfg username) password = (none, c1) →
      w.Search c1 (userSearchRequest cfg username) = (.ok user, c2) →
      user.Entries.length ≠ 1 →
      dirOps (Login w username password).trace =
        [.bind (bindDN cfg username) password,
          .search (userSearchRequest cfg username)]) := by
  have hops := dirOps_Login w username password
  have hpre : ∀ cfg : ConfigEntry, w.Config = .ok (some cfg) →
      (cfg.RealmDomain ≠ "" →
        ∃ dn : String,
          dirOps (Login w username password).trace <+:
            [.bind (bindDN cfg username) password,
              .search (userSearchRequest cfg username),
              .search (groupSearchRequest cfg username dn)]) ∧
      (cfg.RealmDomain = "" →
        dirOps (Login w username password).trace <+:
          [.bind (bindDN cfg username) password,
            .search (groupSearchRequest cfg username (bindDN cfg username))]) := by
    intro cfg hcfg
    rw [hops]
    exact ⟨authenticate_realm_ops w cfg username password hcfg,
      authenticate_plain_ops w cfg username password hcfg⟩
  have hnone : (∀ cfg : ConfigEntry, w.Config ≠ .ok (some cfg)) →
      dirOps (Login w username password).trace = [] := by
    intro h
    rw [hops, authenticate_no_config w username password h]
    rfl
  refine ⟨?_, hpre, hnone, ?_, ?_, ?_, ?_⟩
  · by_cases hc : ∃ cfg, w.Config = .ok (some cfg)
    · obtain ⟨cfg, hcfg⟩ := hc
      by_cases hrealm : cfg.RealmDomain = ""
      · have hp := (hpre cfg hcfg).2 hrealm
        refine ⟨le_trans hp.length_le (by simp), List.Nodup.sublist hp.sublist ?_⟩
        simp
      · obtain ⟨dn, hp⟩ := (hpre cfg hcfg).1 hrealm
        refine ⟨le_trans hp.length_le (by simp), List.Nodup.sublist hp.sublist ?_⟩
        simp [userSearchRequest, groupSearchRequest]
    · have h0 := hnone (fun cfg hcfg => hc ⟨cfg, hcfg⟩)
      rw [h0]
      exact ⟨by simp, List.nodup_nil⟩
  · intro cfg err hcfg hdial
    rw [hops, authenticate_dial_error w cfg username password err hcfg hdial]
    rfl
  · intro cfg c c1 err hcfg hdial hbind
    rw [hops, authenticate_bind_error w cfg c c1 username password err hcfg hdial hbind]
    rfl
  · intro cfg c c1 c2 err hcfg hdial hrealm hbind hsearch
    rw [hops, (authenticate_realm_trace w cfg c c1 username password hcfg hdial hrealm
      hbind).1 err c2 hsearch]
    rfl
  · intro cfg c c1 c2 user hcfg hdial hrealm hbind hsearch hlen
    rw [hops, (authenticate_realm_trace w cfg c c1 username password hcfg hdial hrealm
      hbind).2.1 user c2 hsearch hlen]
    rfl

/-- Witness of C14: the operations of a successful login with a realm are
the bind, the user search and the group search; those of a rejected bind
are the bind alone. -/
theorem Login_operation_sequence_witness :
    dirOps (Login (scenario cfgRealm none [aliceEntry] [adminsEntry])
        "alice" "secret").trace =
      [.bind "alice@example.com" "secret",
        .search (userSearchRequest cfgRealm "alice"),
        .search (groupSearchRequest cfgRealm "alice"
          "CN=Alice,OU=Staff,DC=example,DC=com")] ∧
    (∃ dn : String,
      dirOps (Login (scenario cfgRealm none [aliceEntry] [adminsEntry])
          "alice" "secret").trace <+:
        [.bind (bindDN cfgRealm "alice") "secret",
          .search (userSearchRequest cfgRealm "alice"),
          .search (groupSearchRequest cfgRealm "alice" dn)]) ∧
    dirOps (Login (scenario cfgA (some "Invalid Credentials") [] [adminsEntry])
        "alice" "secret").trace =
      [.bind (bindDN cfgA "alice") "secret"] :=
  ⟨by decide,
    ((Login_operation_sequence (scenario cfgRealm none [aliceEntry] [adminsEntry])
      "alice" "secret").2.1 cfgRealm rfl).1 (by decide),
    (Login_operation_sequence (scenario cfgA (some "Invalid Credentials") [] [adminsEntry])
      "alice" "secret").2.2.2.2.1 cfgA false false "Invalid Credentials" rfl rfl rfl⟩

/-! ### Failures of the group store -/

/-- The loop does not tell a failed lookup from a miss. -/
theorem groupLoop_store (G G2 : String → Except String (Option GroupEntry))
    (h : ∀ g, G2 g = G g ∨ ((∃ err, G g = .error err) ∧ G2 g = .ok none))
    (es : List Entry) :
    ∀ st : LoopState, groupLoop G2 es st = groupLoop G es st := by
  induction es with
  | nil => intro st; rfl
  | cons e es ih =>
    intro st
    rw [groupLoop, groupLoop]
    cases hg : gnameOf e.DN with
    | none => rfl
    | some g =>
      simp only
      rcases h g with h1 | ⟨⟨err, h1⟩, h2⟩
      · rw [h1]
        split <;> simp [ih]
      · rw [h1, h2]
        simp [ih]

theorem authenticate_withGroup {σ : Type} (w : World σ)
    (G2 : String → Except String (Option GroupEntry)) (username password : String) :
    authenticate (w.withGroup G2) username password = authenticate w username password :=
  rfl

/-- A store in which some lookups fail grants a sublist of what it grants
when they do not fail. -/
theorem granted_sublist (G G0 : String → Except String (Option GroupEntry))
    (h : ∀ g, G g = G0 g ∨ ∃ err, G g = .error err) (es : List Entry) :
    (granted G es).Sublist (granted G0 es) := by
  induction es with
  | nil => exact List.Sublist.refl _
  | cons e es ih =>
    rw [granted_cons, granted_cons]
    rcases h (groupName e.DN) with h1 | ⟨err, h1⟩
    · rw [h1]
      exact List.Sublist.append (List.Sublist.refl _) ih
    · rw [h1]
      exact List.Sublist.append (List.nil_sublist _) ih

/-- C15: a group-store lookup that returns an error is treated exactly like
a miss: the run of Login equals the run in which the failing lookups find no
group, so the error is neither returned nor reported and the other groups
are processed as before; and the policies granted by a store in which some
lookups fail are a sublist of those granted when they do not fail, or the
login ends for want of an authorized group. -/
theorem Login_store_error_as_miss {σ : Type} (w : World σ)
    (G2 : String → Except String (Option GroupEntry)) (username password : String)
    (h : ∀ g, G2 g = w.Group g ∨ ((∃ err, w.Group g = .error err) ∧ G2 g = .ok none)) :
    Login w username password = Login (w.withGroup G2) username password ∧
    (∀ (G0 : String → Except String (Option GroupEntry)) (sresult : SearchResult)
        (c : σ) (tr : List Event),
      (∀ g, w.Group g = G0 g ∨ ∃ err, w.Group g = .error err) →
      authenticate w username password = .groups sresult c tr →
      (∀ e ∈ sresult.Entries, wellFormed e.DN) →
      (Login w username password).outcome =
          .ret [] (some (ErrorResponse "user is not member of any authorized group")) none ∨
        ∃ ps : List String,
          (Login w username password).outcome = .ret ps none none ∧
          ps.Sublist (granted G0 sresult.Entries)) := by
  constructor
  · unfold Login
    rw [authenticate_withGroup]
    cases authenticate w username password with
    | done r => rfl
    | groups sresult c tr =>
      simp only [aggregate]
      rw [show (w.withGroup G2).Group = G2 from rfl,
        groupLoop_store w.Group G2 h sresult.Entries]
  · intro G0 sresult c tr hG0 hreach hwf
    rw [Login_of_groups w username password sresult c tr hreach,
      aggregate_wellFormed w.Group sresult c tr hwf]
    by_cases hnil : granted w.Group sresult.Entries = []
    · left
      simp [hnil, errorReturn]
    · right
      exact ⟨_, by simp [hnil], granted_sublist w.Group G0 hG0 sresult.Entries⟩

/-- Witness of C15: the store fails on `users` and maps `admins`; the login
runs as if `users` were unmapped and grants the policy of `admins` only. -/
theorem Login_store_error_as_miss_witness :
    Login ((scenario cfgA none [] [usersEntry, adminsEntry]).withGroup brokenStore)
        "alice" "secret" =
      Login (((scenario cfgA none [] [usersEntry, adminsEntry]).withGroup
        brokenStore).withGroup missingStore) "alice" "secret" ∧
    (Login ((scenario cfgA none [] [usersEntry, adminsEntry]).withGroup brokenStore)
        "alice" "secret").outcome = .ret ["admin-policy"] none none ∧
    granted healthyStore [usersEntry, adminsEntry] = ["user-policy", "admin-policy"] :=
  ⟨(Login_store_error_as_miss
      ((scenario cfgA none [] [usersEntry, adminsEntry]).withGroup brokenStore)
      missingStore "alice" "secret"
      (fun g => by
        by_cases hg : g = "admins"
        · left; simp [missingStore, brokenStore, World.withGroup, hg]
        · right
          exact ⟨⟨"storage unavailable", by simp [brokenStore, World.withGroup, hg]⟩,
            by simp [missingStore, hg]⟩)).1,
    by decide, by decide⟩

/-! ### The password -/

/-- The loop carries the calls made before it along unchanged. -/
theorem groupLoop_mapTrace (G : String → Except String (Option GroupEntry))
    (f : Event → Event) (hf : ∀ g, f (.group g) = .group g) (es : List Entry) :
    ∀ (a ps : List String) (tr : List Event),
      groupLoop G es ⟨a, ps, tr.map f⟩ =
        (groupLoop G es ⟨a, ps, tr⟩).mapTrace (List.map f) := by
  induction es with
  | nil => intro a ps tr; rfl
  | cons e es ih =>
    intro a ps tr
    rw [groupLoop, groupLoop]
    cases hg : gnameOf e.DN with
    | none => rfl
    | some g =>
      have hstep : tr.map f ++ [Event.group g] = (tr ++ [Event.group g]).map f := by
        simp [hf]
      simp only [hstep]
      split <;> exact ih _ _ _

theorem aggregate_mapTrace {σ : Type} (G : String → Except String (Option GroupEntry))
    (f : Event → Event) (hf : ∀ g, f (.group g) = .group g)
    (sresult : SearchResult) (c : σ) (tr : List Event) :
    aggregate G sresult c (tr.map f) =
      (aggregate G sresult c tr).mapTrace (List.map f) := by
  unfold aggregate
  rw [groupLoop_mapTrace G f hf]
  cases groupLoop G sresult.Entries ⟨[], [], tr⟩ with
  | panic t => rfl
  | done st =>
    simp only [LoopResult.mapTrace]
    split <;> rfl

/-- Two runs whose binds are answered alike go through lines 50-106 alike,
but for the password of the bind. -/
theorem authenticate_password {σ : Type} (w : World σ) (username p1 p2 : String)
    (hbind : ∀ (cfg : ConfigEntry) (c : σ),
      w.Config = .ok (some cfg) → w.DialLDAP cfg = .ok c →
      w.Bind c (bindDN cfg username) p1 = w.Bind c (bindDN cfg username) p2) :
    authenticate w username p2 =
      (authenticate w username p1).mapTrace (List.map (Event.setPassword p2)) := by
  cases hc : w.Config with
  | error err => simp [authenticate, hc, Phase.mapTrace, Run.mapTrace]
  | ok o =>
    cases o with
    | none => simp [authenticate, hc, Phase.mapTrace, Run.mapTrace]
    | some cfg =>
      cases hd : w.DialLDAP cfg with
      | error err =>
        simp [authenticate, hc, hd, Phase.mapTrace, Run.mapTrace, Event.setPassword]
      | ok c =>
        have hb := hbind cfg c hc hd
        simp only [authenticate, searchGroups, hc, hd, hb]
        repeat' split
        all_goals rfl

/-- Two runs whose binds are answered alike are alike, but for the password
of the bind. -/
theorem Login_mapTrace_of_bind_eq {σ : Type} (w : World σ) (username p1 p2 : String)
    (hbind : ∀ (cfg : ConfigEntry) (c : σ),
      w.Config = .ok (some cfg) → w.DialLDAP cfg = .ok c →
      w.Bind c (bindDN cfg username) p1 = w.Bind c (bindDN cfg username) p2) :
    Login w username p2 =
      (Login w username p1).mapTrace (List.map (Event.setPassword p2)) := by
  have h := authenticate_password w username p1 p2 hbind
  unfold Login
  rw [h]
  cases authenticate w username p1 with
  | done r => rfl
  | groups sresult c tr =>
    exact aggregate_mapTrace w.Group (Event.setPassword p2) (fun _ => rfl) sresult c tr

theorem filter_setPassword (pw : String) (tr : List Event) :
    (tr.map (Event.setPassword pw)).filter (fun e => !e.isBind) =
      tr.filter (fun e => !e.isBind) := by
  induction tr with
  | nil => rfl
  | cons e tr ih =>
    rw [List.map_cons, List.filter_cons, List.filter_cons, ih]
    cases e <;> rfl

/-- The searches of a run are the user search and the group search, built
from the configuration, the username and the bound identity or the
distinguished name that the directory returned. -/
theorem Login_search_requests {σ : Type} (w : World σ) (cfg : ConfigEntry)
    (username password : String) (hcfg : w.Config = .ok (some cfg))
    (req : SearchRequest) (hreq : Event.search req ∈ (Login w username password).trace) :
    req = userSearchRequest cfg username ∨
    req = groupSearchRequest cfg username (bindDN cfg username) ∨
    ∃ (c1 c2 : σ) (e : Entry),
      w.Search c1 (userSearchRequest cfg username) = (.ok ⟨[e]⟩, c2) ∧
      req = groupSearchRequest cfg username (e.GetAttributeValue "distinguishedName") := by
  obtain ⟨gs, hgs⟩ := Login_trace w username password
  rw [hgs] at hreq
  have hmem : Event.search req ∈ (authenticate w username password).trace := by
    rcases List.mem_append.mp hreq with h | h
    · exact h
    · simp at h
  clear hreq hgs
  cases hd : w.DialLDAP cfg with
  | error err =>
    rw [authenticate_dial_error w cfg username password err hcfg hd] at hmem
    simp at hmem
  | ok c =>
    rcases hb : w.Bind c (bindDN cfg username) password with ⟨r, c1⟩
    cases r with
    | some err =>
      rw [authenticate_bind_error w cfg c c1 username password err hcfg hd hb] at hmem
      simp at hmem
    | none =>
      by_cases hrealm : cfg.RealmDomain = ""
      · rw [authenticate_plain_trace w cfg c c1 username password hcfg hd hrealm hb] at hmem
        simp at hmem
        exact Or.inr (Or.inl hmem)
      · obtain ⟨h1, h2, h3⟩ :=
          authenticate_realm_trace w cfg c c1 username password hcfg hd hrealm hb
        rcases hs : w.Search c1 (userSearchRequest cfg username) with ⟨res, c2⟩
        cases res with
        | error err =>
          rw [h1 err c2 hs] at hmem
          simp at hmem
          exact Or.inl hmem
        | ok user =>
          by_cases hlen : user.Entries.length = 1
          · rcases user with ⟨entries⟩
            obtain ⟨e, he⟩ := List.length_eq_one.mp hlen
            simp only at he
            subst he
            rw [h3 e c2 hs] at hmem
            simp at hmem
            rcases hmem with h | h
            · exact Or.inl h
            · exact Or.inr (Or.inr ⟨c1, c2, e, hs, h⟩)
          · rw [h2 user c2 hs hlen] at hmem
            simp at hmem
            exact Or.inl hmem

/-- C16: the password reaches Login through the answer to the bind only:
two runs with passwords `p1` and `p2` whose binds are answered alike (same
result, same connection) end alike and make the same calls, the password
argument of the bind apart, so their searches and group-store lookups are
identical; and every search request is built from the configuration, the
username and the bound identity or the distinguished name returned by the
directory, never from the password. -/
theorem Login_password_independence {σ : Type} (w : World σ) (username p1 p2 : String)
    (hbind : ∀ (cfg : ConfigEntry) (c : σ),
      w.Config = .ok (some cfg) → w.DialLDAP cfg = .ok c →
      w.Bind c (bindDN cfg username) p1 = w.Bind c (bindDN cfg username) p2) :
    (Login w username p1).outcome = (Login w username p2).outcome ∧
    (Login w username p1).conn = (Login w username p2).conn ∧
    (Login w username p2).trace =
      (Login w username p1).trace.map (Event.setPassword p2) ∧
    (Login w username p1).trace.filter (fun e => !e.isBind) =
      (Login w username p2).trace.filter (fun e => !e.isBind) ∧
    (∀ (cfg : ConfigEntry) (req : SearchRequest),
      w.Config = .ok (some cfg) →
      Event.search req ∈ (Login w username p1).trace →
      req = userSearchRequest cfg username ∨
      req = groupSearchRequest cfg username (bindDN cfg username) ∨
      ∃ (c1 c2 : σ) (e : Entry),
        w.Search c1 (userSearchRequest cfg username) = (.ok ⟨[e]⟩, c2) ∧
        req = groupSearchRequest cfg username
          (e.GetAttributeValue "distinguishedName")) := by
  have h := Login_mapTrace_of_bind_eq w username p1 p2 hbind
  refine ⟨?_, ?_, ?_, ?_, ?_⟩
  · rw [h]; rfl
  · rw [h]; rfl
  · rw [h]; rfl
  · rw [h]
    exact (filter_setPassword p2 (Login w username p1).trace).symm
  · intro cfg req hcfg hreq
    exact Login_search_requests w cfg username p1 hcfg req hreq

/-- Witness of C16: alice logs in to the realm with two passwords that the
directory both accepts; the two runs grant the same policies and issue the
same searches and lookups. -/
theorem Login_password_independence_witness :
    (Login (scenario cfgRealm none [aliceEntry] [adminsEntry]) "alice" "secret").outcome =
      (Login (scenario cfgRealm none [aliceEntry] [adminsEntry]) "alice" "hunter2").outcome ∧
    (Login (scenario cfgRealm none [aliceEntry] [adminsEntry]) "alice" "secret").trace.filter
        (fun e => !e.isBind) =
      (Login (scenario cfgRealm none [aliceEntry] [adminsEntry]) "alice" "hunter2").trace.filter
        (fun e => !e.isBind) ∧
    (Login (scenario cfgRealm none [aliceEntry] [adminsEntry]) "alice" "hunter2").trace =
      [.dial, .bind "alice@example.com" "hunter2",
        .search (userSearchRequest cfgRealm "alice"),
        .search (groupSearchRequest cfgRealm "alice" "CN=Alice,OU=Staff,DC=example,DC=com"),
        .group "admins"] :=
  ⟨(Login_password_independence (scenario cfgRealm none [aliceEntry] [adminsEntry])
      "alice" "secret" "hunter2" (fun _ _ _ _ => rfl)).1,
    (Login_password_independence (scenario cfgRealm none [aliceEntry] [adminsEntry])
      "alice" "secret" "hunter2" (fun _ _ _ _ => rfl)).2.2.2.1,
    by decide⟩

end Ldap
